import Mathlib

/-!
# Interview policy engine: a shallow embedding

A Lean model of the session policy engine of the hack2hire interview
repository: the policy constant table (`services/policy.ts`), the pure
scoring/adaptation kernel (`LogicCore`), the deterministic fallback
evaluator (`FallbackRegistry.evaluate`), and the stateful session
controller (`InterviewEngine`), translated from the TypeScript source.

Modelling conventions:
* JavaScript numbers are modelled as `ℚ`; the constants and the arithmetic
  of the engine stay exact at the 1- and 2-decimal precision the code
  rounds to, so `ℚ` matches `Number(x.toFixed(d))` on every value the
  engine produces.  `Number(x.toFixed(d))` itself is modelled as
  round-half-up at `d` decimals (`roundTo`).
* JavaScript strings are modelled as Lean `String`; `trim`, `toLowerCase`,
  `includes` and `length` are modelled structurally over the character
  list (`jsTrim`, `jsToLowerCase`, `jsIncludes`, `jsLength`).  ASCII
  lowercasing and the ASCII whitespace of `Char.isWhitespace` stand in for
  the slightly larger Unicode sets of JavaScript; every string the engine
  itself compares is ASCII.
* The mutable `InterviewEngine` class becomes explicit state passing: each
  public method maps the pre-state to the post-state, paired with the list
  of states observed by subscribers, one per `notify()` call inside the
  method, in call order.  `submitAnswer` (an `async` method that can
  `throw`) returns `Except String`.
* Wall-clock inputs are explicit parameters (`now` for `Date.now()`); the
  `[time]` prefix and the interpolated details of audit-log messages are
  abbreviated to fixed strings, since no property concerns log text.  The
  log list keeps its prepend-and-cap-at-200 structure.
-/

namespace Hack2Hire

/-- `Difficulty` from `types.ts`. -/
inductive Difficulty
  | Easy
  | Medium
  | Hard
deriving DecidableEq, Repr

/-- The `'Junior' | 'Mid' | 'Senior'` string union of `types.ts`. -/
inductive ComplexityLevel
  | Junior
  | Mid
  | Senior
deriving DecidableEq, Repr

/-- `EvaluationMode` from `types.ts`. -/
inductive EvaluationMode
  | LLM
  | FALLBACK_RULE_BASED
deriving DecidableEq, Repr

/-- The status string union of `InterviewState` in `types.ts`. -/
inductive Status
  | IDLE
  | ANALYZING
  | GENERATING
  | INTERVIEWING
  | EVALUATING
  | TERMINATED
  | COMPLETED
deriving DecidableEq, Repr

/-- The `'PRIMARY' | 'SECONDARY'` tag of a detected skill gap. -/
inductive GapType
  | PRIMARY
  | SECONDARY
deriving DecidableEq, Repr

/-- `Skill` from `types.ts`. -/
structure Skill where
  name : String
  level : ComplexityLevel
deriving DecidableEq, Repr

/-- `ResumeData` from `types.ts`. -/
structure ResumeData where
  candidateName : String
  skills : List Skill
  experienceYears : ℚ
  primaryRole : String
deriving DecidableEq, Repr

/-- `JobDescriptionData` from `types.ts`. -/
structure JobDescriptionData where
  roleTitle : String
  primarySkills : List String
  secondarySkills : List String
  complexityLevel : ComplexityLevel
  description : String
deriving DecidableEq, Repr

/-- `Question` from `types.ts`. -/
structure Question where
  id : String
  text : String
  targetSkill : String
  difficulty : Difficulty
  expectedKeywords : List String
deriving DecidableEq, Repr

/-- `EvaluationCriteria` from `types.ts`: the four 0-10 dimensions. -/
structure EvaluationCriteria where
  accuracy : ℚ
  clarity : ℚ
  depth : ℚ
  relevance : ℚ
deriving DecidableEq, Repr

/-- The shape `evaluateAnswer` (and `FallbackRegistry.evaluate`) returns:
`Omit<AnswerEvaluation, 'totalScore' | 'timeTakenSeconds' | 'timePenalty' |
'finalScore'>` — the raw criteria, the feedback text, and the fallback flag. -/
structure RawEval where
  accuracy : ℚ
  clarity : ℚ
  depth : ℚ
  relevance : ℚ
  feedback : String
  isFallback : Bool
deriving DecidableEq, Repr

/-- `AnswerEvaluation` from `types.ts`. -/
structure AnswerEvaluation where
  accuracy : ℚ
  clarity : ℚ
  depth : ℚ
  relevance : ℚ
  totalScore : ℚ
  feedback : String
  timeTakenSeconds : ℚ
  timePenalty : ℚ
  finalScore : ℚ
  skillGapPenalty : Option ℚ
  isFallback : Option Bool
deriving DecidableEq, Repr

/-- `InterviewTurn` from `types.ts`. -/
structure InterviewTurn where
  question : Question
  answer : String
  evaluation : AnswerEvaluation
  difficultyBefore : Difficulty
  difficultyAfter : Difficulty
  timestamp : ℤ
  criticalFailure : Bool
deriving DecidableEq, Repr

/-- A detected skill gap: element of `InterviewState.detectedSkillGaps`. -/
structure SkillGapEntry where
  skill : String
  type : GapType
deriving DecidableEq, Repr

/-- The `config` record inside `InterviewState`. -/
structure SessionConfig where
  maxQuestions : ℕ
  timeLimitPerQuestion : ℚ
  passingScoreThreshold : ℚ
  maxViolations : ℕ
deriving DecidableEq, Repr

/-- `InterviewState` from `types.ts`. -/
structure InterviewState where
  status : Status
  currentDifficulty : Difficulty
  evaluationMode : EvaluationMode
  activeQuestion : Option Question
  turns : List InterviewTurn
  scoreHistory : List ℚ
  consecutiveWeakAnswers : ℕ
  timeViolations : ℕ
  detectedSkillGaps : List SkillGapEntry
  difficultyCeiling : Option Difficulty
  terminationReason : Option String
  logs : List String
  config : SessionConfig
deriving DecidableEq, Repr

/-! ## The policy constant table (`services/policy.ts`) -/

namespace INTERVIEW_POLICY

def SCORING.DIMENSIONS.ACCURACY.weight : ℚ := 0.40

def SCORING.DIMENSIONS.DEPTH.weight : ℚ := 0.30

def SCORING.DIMENSIONS.CLARITY.weight : ℚ := 0.15

def SCORING.DIMENSIONS.RELEVANCE.weight : ℚ := 0.15

def SCORING.STRONG_SCORE : ℚ := 8.0

def SCORING.WEAK_SCORE : ℚ := 4.5

def SCORING.CRITICAL_FAIL_SCORE : ℚ := 2.0

def SCORING.PASSING_THRESHOLD : ℚ := 6.0

def FALLBACK_SCORING.KEYWORD_MATCH_VALUE : ℚ := 2.0

def FALLBACK_SCORING.LENGTH_THRESHOLD_CHARS : ℕ := 50

def FALLBACK_SCORING.LENGTH_BONUS : ℚ := 1.0

def FALLBACK_SCORING.BASE_SCORE : ℚ := 4.0

def FALLBACK_SCORING.MAX_SCORE : ℚ := 8.5

def TIMING.LIMIT_SEC : ℚ := 60

def TIMING.PENALTY_START_SEC : ℚ := 60

def TIMING.PENALTY_STEP_SEC : ℚ := 5

def TIMING.PENALTY_PER_STEP : ℚ := 0.5

/-- `MAX_VIOLATIONS_ALLOWED: 2` — compared against the integer violation
counter, so modelled as `ℕ`. -/
def TIMING.MAX_VIOLATIONS_ALLOWED : ℕ := 2

def TIMING.MIN_ANSWER_TIME_MS : ℚ := 2000

/-- `DIFFICULTY.INITIAL`: the complexity-to-difficulty lookup object (its
`|| Difficulty.Easy` default is unreachable since the enumeration is total). -/
def DIFFICULTY.INITIAL : ComplexityLevel → Difficulty
  | ComplexityLevel.Senior => Difficulty.Medium
  | ComplexityLevel.Mid => Difficulty.Easy
  | ComplexityLevel.Junior => Difficulty.Easy

def DIFFICULTY.CEILING.CRITICAL_GAP_MATCH_THRESHOLD : ℚ := 0.6

def DIFFICULTY.CEILING.CAP_LEVEL : Difficulty := Difficulty.Medium

def RESUME_JD_LOGIC.PENALTIES.PRIMARY_MISSING : ℚ := 1.5

def RESUME_JD_LOGIC.PENALTIES.SECONDARY_MISSING : ℚ := 0.5

/-- `TERMINATION.MAX_QUESTIONS: 5`. -/
def TERMINATION.MAX_QUESTIONS : ℕ := 5

/-- `TERMINATION.STRIKE_LIMIT: 3`. -/
def TERMINATION.STRIKE_LIMIT : ℕ := 3

/-- `TERMINATION.CRITICAL_FAIL_STRIKES: 2`. -/
def TERMINATION.CRITICAL_FAIL_STRIKES : ℕ := 2

def EDGE_CASES.EMPTY_ANSWER_SCORE : ℚ := 0

def EDGE_CASES.IRRELEVANT_ANSWER_SCORE : ℚ := 0

def EDGE_CASES.SPAM_ANSWER_SCORE : ℚ := 0

end INTERVIEW_POLICY

/-! ## String primitives (JavaScript semantics over `List Char`) -/

/-- JS `s.toLowerCase()` (ASCII lowering stands in for Unicode). -/
def jsToLowerCase (s : String) : String := String.mk (s.data.map Char.toLower)

/-- JS `s.trim()`: strip leading and trailing whitespace. -/
def jsTrim (s : String) : String :=
  String.mk (((s.data.dropWhile Char.isWhitespace).reverse.dropWhile Char.isWhitespace).reverse)

/-- JS `s.length` (code-unit count modelled as character count). -/
def jsLength (s : String) : ℕ := s.data.length

/-- JS `hay.includes(needle)`: substring occurrence. -/
def jsIncludes (hay needle : String) : Bool :=
  hay.data.tails.any (fun t => needle.data.isPrefixOf t)

/-- JS `Number(x.toFixed(d))`: round half up at `d` decimal places
(`toFixed` picks the larger candidate on a tie, and every value the engine
rounds is nonnegative). -/
def roundTo (d : ℕ) (x : ℚ) : ℚ :=
  ((⌊x * (10 : ℚ) ^ d + 1 / 2⌋ : ℤ) : ℚ) / (10 : ℚ) ^ d

/-! ## The pure kernel: `LogicCore` (engine source, "PURE DETERMINISTIC
MECHANISM" section) -/

namespace LogicCore

/-- `LogicCore.calculateScore`: the weighted sum of the four criteria,
rounded at 2 decimals (`Number(score.toFixed(2))`). -/
def calculateScore (criteria : EvaluationCriteria) : ℚ :=
  roundTo 2
    (criteria.accuracy * INTERVIEW_POLICY.SCORING.DIMENSIONS.ACCURACY.weight
      + criteria.depth * INTERVIEW_POLICY.SCORING.DIMENSIONS.DEPTH.weight
      + criteria.clarity * INTERVIEW_POLICY.SCORING.DIMENSIONS.CLARITY.weight
      + criteria.relevance * INTERVIEW_POLICY.SCORING.DIMENSIONS.RELEVANCE.weight)

/-- The `{ penalty, isViolation }` pair `calculateTimeLogic` returns. -/
structure TimeLogic where
  penalty : ℚ
  isViolation : Bool
deriving DecidableEq, Repr

/-- `LogicCore.calculateTimeLogic`. -/
def calculateTimeLogic (seconds : ℚ) : TimeLogic :=
  if seconds ≤ INTERVIEW_POLICY.TIMING.PENALTY_START_SEC then
    { penalty := 0, isViolation := false }
  else
    let overtime := seconds - INTERVIEW_POLICY.TIMING.PENALTY_START_SEC
    let steps : ℤ := ⌈overtime / INTERVIEW_POLICY.TIMING.PENALTY_STEP_SEC⌉
    let penalty := (steps : ℚ) * INTERVIEW_POLICY.TIMING.PENALTY_PER_STEP
    { penalty := roundTo 1 penalty, isViolation := true }

/-- The `{ penalty, type }` pair `checkSkillGap` returns. -/
structure GapResult where
  penalty : ℚ
  type : Option GapType
deriving DecidableEq, Repr

/-- `LogicCore.checkSkillGap`: first gap whose skill matches the target
skill case-insensitively. -/
def checkSkillGap (targetSkill : String) (gaps : List SkillGapEntry) : GapResult :=
  match gaps.find? (fun g => jsToLowerCase g.skill == jsToLowerCase targetSkill) with
  | none => { penalty := 0, type := none }
  | some g =>
    match g.type with
    | GapType.PRIMARY =>
      { penalty := INTERVIEW_POLICY.RESUME_JD_LOGIC.PENALTIES.PRIMARY_MISSING
        type := some GapType.PRIMARY }
    | GapType.SECONDARY =>
      { penalty := INTERVIEW_POLICY.RESUME_JD_LOGIC.PENALTIES.SECONDARY_MISSING
        type := some GapType.SECONDARY }

/-- The `levels` hierarchy array inside `nextDifficulty`. -/
def levels : List Difficulty := [Difficulty.Easy, Difficulty.Medium, Difficulty.Hard]

/-- `LogicCore.nextDifficulty`: escalate on a strong score, downgrade on a
weak one (both saturating), then clamp to the ceiling by `levels` index. -/
def nextDifficulty (current : Difficulty) (score : ℚ) (ceiling : Option Difficulty) :
    Difficulty :=
  let next :=
    if INTERVIEW_POLICY.SCORING.STRONG_SCORE ≤ score then
      match current with
      | Difficulty.Easy => Difficulty.Medium
      | Difficulty.Medium => Difficulty.Hard
      | Difficulty.Hard => Difficulty.Hard
    else if score ≤ INTERVIEW_POLICY.SCORING.WEAK_SCORE then
      match current with
      | Difficulty.Hard => Difficulty.Medium
      | Difficulty.Medium => Difficulty.Easy
      | Difficulty.Easy => Difficulty.Easy
    else current
  match ceiling with
  | some cap => if levels.indexOf cap < levels.indexOf next then cap else next
  | none => next

end LogicCore

/-! ## The deterministic fallback evaluator (`services/gemini.ts`,
`FallbackRegistry`) -/

namespace FallbackRegistry

/-- `FallbackRegistry.evaluate`: keyword/length heuristic. -/
def evaluate (question : Question) (answer : String) : RawEval :=
  let lowerAnswer := jsToLowerCase answer
  let keywordHits :=
    (question.expectedKeywords.filter
      (fun kw => jsIncludes lowerAnswer (jsToLowerCase kw))).length
  let isShort := jsLength answer < INTERVIEW_POLICY.FALLBACK_SCORING.LENGTH_THRESHOLD_CHARS
  let heuristicScore :=
    min
      (INTERVIEW_POLICY.FALLBACK_SCORING.BASE_SCORE
        + (keywordHits : ℚ) * INTERVIEW_POLICY.FALLBACK_SCORING.KEYWORD_MATCH_VALUE
        + (if isShort then 0 else INTERVIEW_POLICY.FALLBACK_SCORING.LENGTH_BONUS))
      INTERVIEW_POLICY.FALLBACK_SCORING.MAX_SCORE
  let feedback :=
    "[Deterministic Evaluation] Score calculated based on length and keyword coverage. "
      ++ (if 0 < keywordHits then "Identified relevant concepts. "
          else "Answer lacked specific expected technical terminology. ")
      ++ (if isShort then "Response was brief." else "")
  { accuracy := min 10 heuristicScore
    clarity := 6
    depth := if isShort then 3 else 6
    relevance := if 0 < keywordHits then 8 else 4
    feedback := feedback
    isFallback := true }

end FallbackRegistry

/-! ## The stateful session controller (`InterviewEngine`)

Each public method maps the pre-state to the post-state together with the
list of states handed to subscribers, one entry per `notify()` call, in
call order. -/

namespace InterviewEngine

/-- `log(msg)`: prepend the message and cap the list at 200 entries by
dropping the oldest (the wall-clock `[time]` prefix is omitted). -/
def pushLog (msg : String) (s : InterviewState) : InterviewState :=
  let l := msg :: s.logs
  { s with logs := if 200 < l.length then l.dropLast else l }

/-- `getInitialState()`. -/
def getInitialState : InterviewState where
  status := Status.IDLE
  currentDifficulty := Difficulty.Easy
  evaluationMode := EvaluationMode.LLM
  activeQuestion := none
  turns := []
  scoreHistory := []
  consecutiveWeakAnswers := 0
  timeViolations := 0
  detectedSkillGaps := []
  difficultyCeiling := none
  terminationReason := none
  logs := ["[SYSTEM] Engine Online. Policy: Strict. Mode: Deterministic."]
  config :=
    { maxQuestions := INTERVIEW_POLICY.TERMINATION.MAX_QUESTIONS
      timeLimitPerQuestion := INTERVIEW_POLICY.TIMING.LIMIT_SEC
      passingScoreThreshold := INTERVIEW_POLICY.SCORING.PASSING_THRESHOLD
      maxViolations := INTERVIEW_POLICY.TIMING.MAX_VIOLATIONS_ALLOWED }

/-- `startAnalysis()`. -/
def startAnalysis (s : InterviewState) : InterviewState × List InterviewState :=
  let s1 := pushLog "[STATE] Analyzing Documents against Policy..." { s with status := Status.ANALYZING }
  (s1, [s1])

/-- `initializeSession(jd, resume)`: initial difficulty from JD complexity,
skill-gap analysis, optional difficulty ceiling, then back to ready `IDLE`. -/
def initializeSession (jd : JobDescriptionData) (resume : ResumeData) (s : InterviewState) :
    InterviewState × List InterviewState :=
  let startDiff := INTERVIEW_POLICY.DIFFICULTY.INITIAL jd.complexityLevel
  let s1 := pushLog "[POLICY] JD Complexity sets Initial Difficulty." { s with currentDifficulty := startDiff }
  let resumeSkills := resume.skills.map (fun sk => jsTrim (jsToLowerCase sk.name))
  let primaryGapSkills := jd.primarySkills.filter (fun skill => !(resumeSkills.contains (jsTrim (jsToLowerCase skill))))
  let secondaryGapSkills := jd.secondarySkills.filter (fun skill => !(resumeSkills.contains (jsTrim (jsToLowerCase skill))))
  let gaps := primaryGapSkills.map (fun sk => SkillGapEntry.mk sk GapType.PRIMARY) ++ secondaryGapSkills.map (fun sk => SkillGapEntry.mk sk GapType.SECONDARY)
  let primaryMissing := primaryGapSkills.length
  let s2 := pushLog "[ANALYSIS] Skill gaps recorded." { s1 with detectedSkillGaps := gaps }
  let primaryCount := jd.primarySkills.length
  let primaryMatchRate : ℚ := if 0 < primaryCount then ((primaryCount : ℚ) - (primaryMissing : ℚ)) / (primaryCount : ℚ) else 1
  let s3 :=
    if primaryMatchRate < INTERVIEW_POLICY.DIFFICULTY.CEILING.CRITICAL_GAP_MATCH_THRESHOLD then
      pushLog "[POLICY] Critical Skill Match below threshold. Difficulty Capped."
        { s2 with difficultyCeiling := some INTERVIEW_POLICY.DIFFICULTY.CEILING.CAP_LEVEL }
    else s2
  let s4 := pushLog "[STATE] Initialization Complete. Waiting for Interview Start." { s3 with status := Status.IDLE }
  (s4, [s4])

/-- `setGenerating()`. -/
def setGenerating (s : InterviewState) : InterviewState × List InterviewState :=
  let s1 := { s with status := Status.GENERATING }
  (s1, [s1])

/-- `presentQuestion(q)`: the source sets `activeQuestion` first and flips
`status` to `INTERVIEWING` second, then notifies once; the single notified
state carries both. -/
def presentQuestion (q : Question) (s : InterviewState) : InterviewState × List InterviewState :=
  let s1 := pushLog "[QUESTION] Question Presented."
    { s with activeQuestion := some q, status := Status.INTERVIEWING }
  (s1, [s1])

/-- `startInterview(firstQuestion)`: guarded against states other than
`IDLE`/`GENERATING` (console warning, no notify), else logs and delegates
to `presentQuestion`. -/
def startInterview (firstQuestion : Question) (s : InterviewState) :
    InterviewState × List InterviewState :=
  if s.status ≠ Status.IDLE ∧ s.status ≠ Status.GENERATING then (s, [])
  else presentQuestion firstQuestion (pushLog "[STATE] Session Initialized. Transitioning to INTERVIEWING." s)

/-- `calculateFinalAverage()` (the source formats it to a 2-decimal string
for the log; the numeric average is modelled). -/
def calculateFinalAverage (s : InterviewState) : ℚ :=
  if s.scoreHistory.length = 0 then 0 else s.scoreHistory.sum / (s.scoreHistory.length : ℚ)

/-- The `terminate(reason)` reason string for a time-violation termination. -/
def timeViolationReason (v limit : ℕ) : String :=
  "Time Management Failure: " ++ toString v ++ " violations exceeded limit of "
    ++ toString limit ++ "."

/-- The `terminate(reason)` reason string for a strike termination. -/
def strikeReason (strikes : ℕ) : String :=
  "Performance Threshold Reached: " ++ toString strikes ++ " consecutive strikes."

/-- `terminate(reason)`: enter `TERMINATED`, record the reason, log, notify. -/
def terminate (reason : String) (s : InterviewState) : InterviewState × List InterviewState :=
  let s1 := pushLog "[TERM] TERMINATION TRIGGERED."
    (pushLog "[FINAL] Interview score finalized."
      { s with status := Status.TERMINATED, terminationReason := some reason })
  (s1, [s1])

/-- `checkTermination()`: `true` with the terminal state and its notified
states when a terminal rule fired, `false` leaving the state untouched
otherwise.  Priority: time violations, then strikes, then question limit. -/
def checkTermination (s : InterviewState) : Bool × InterviewState × List InterviewState :=
  if INTERVIEW_POLICY.TIMING.MAX_VIOLATIONS_ALLOWED < s.timeViolations then
    (true, terminate (timeViolationReason s.timeViolations INTERVIEW_POLICY.TIMING.MAX_VIOLATIONS_ALLOWED) s)
  else if INTERVIEW_POLICY.TERMINATION.STRIKE_LIMIT ≤ s.consecutiveWeakAnswers then
    (true, terminate (strikeReason s.consecutiveWeakAnswers) s)
  else if INTERVIEW_POLICY.TERMINATION.MAX_QUESTIONS ≤ s.turns.length then
    let s1 := pushLog "[TERM] Interview Completed: Maximum question depth reached."
      (pushLog "[FINAL] Interview score finalized." { s with status := Status.COMPLETED })
    (true, s1, [s1])
  else (false, s, [])

/-- The zero-criteria evaluation forced for an empty/whitespace answer. -/
def emptyAnswerEval : RawEval where
  accuracy := INTERVIEW_POLICY.EDGE_CASES.EMPTY_ANSWER_SCORE
  depth := INTERVIEW_POLICY.EDGE_CASES.EMPTY_ANSWER_SCORE
  clarity := INTERVIEW_POLICY.EDGE_CASES.EMPTY_ANSWER_SCORE
  relevance := INTERVIEW_POLICY.EDGE_CASES.EMPTY_ANSWER_SCORE
  feedback := "Automatic Failure: No answer provided."
  isFallback := true

/-- The zero-criteria evaluation forced for a spam-flagged answer. -/
def spamAnswerEval : RawEval where
  accuracy := INTERVIEW_POLICY.EDGE_CASES.SPAM_ANSWER_SCORE
  depth := INTERVIEW_POLICY.EDGE_CASES.SPAM_ANSWER_SCORE
  clarity := INTERVIEW_POLICY.EDGE_CASES.SPAM_ANSWER_SCORE
  relevance := INTERVIEW_POLICY.EDGE_CASES.SPAM_ANSWER_SCORE
  feedback := "Automatic Failure: Response time impossibly fast (Spam detection)."
  isFallback := true

/-- The `!answerText || answerText.trim().length === 0` test. -/
def isEmptyAnswer (answerText : String) : Bool :=
  answerText.data.isEmpty || (jsTrim answerText).data.length == 0

/-- Step D of `submitAnswer`: run `calculateTimeLogic`, and on a violation
increment the counter and log; returns the updated state and the penalty. -/
def applyTimeLogic (timeTakenSeconds : ℚ) (s : InterviewState) : InterviewState × ℚ :=
  let tl := LogicCore.calculateTimeLogic timeTakenSeconds
  if tl.isViolation then
    (pushLog "[POLICY] Time Violation recorded." { s with timeViolations := s.timeViolations + 1 }, tl.penalty)
  else (s, tl.penalty)

/-- Step H of `submitAnswer` (the strike system): a critical failure is
worth `CRITICAL_FAIL_STRIKES`, a weak answer 1 strike, and a strong answer
resets a nonzero counter; then `consecutiveWeakAnswers += strikes`. -/
def applyStrikes (finalScore : ℚ) (s : InterviewState) : InterviewState :=
  let strikes : ℕ :=
    if finalScore ≤ INTERVIEW_POLICY.SCORING.CRITICAL_FAIL_SCORE then
      INTERVIEW_POLICY.TERMINATION.CRITICAL_FAIL_STRIKES
    else if finalScore ≤ INTERVIEW_POLICY.SCORING.WEAK_SCORE then 1
    else 0
  let s1 :=
    if finalScore ≤ INTERVIEW_POLICY.SCORING.CRITICAL_FAIL_SCORE then
      pushLog "[RISK] Critical Failure." s
    else if finalScore ≤ INTERVIEW_POLICY.SCORING.WEAK_SCORE then
      pushLog "[RISK] Weak Answer." s
    else if 0 < s.consecutiveWeakAnswers then
      pushLog "[RECOVERY] Performance stabilized. Resetting consecutive strike counter."
        { s with consecutiveWeakAnswers := 0 }
    else s
  { s1 with consecutiveWeakAnswers := s1.consecutiveWeakAnswers + strikes }

/-- Step J of `submitAnswer`: run `checkTermination`; when nothing fired,
enter `GENERATING` and notify. -/
def finishSubmit (s : InterviewState) : InterviewState × List InterviewState :=
  match checkTermination s with
  | (true, s1, em) => (s1, em)
  | (false, _, _) =>
    let s1 := { s with status := Status.GENERATING }
    (s1, [s1])

/-- Step 1 of `submitAnswer` ("FREEZE STATE"): enter `EVALUATING` and log;
the frozen state is the first notified state. -/
def freeze (s : InterviewState) : InterviewState :=
  pushLog "[EVENT] Answer submitted." { s with status := Status.EVALUATING }

/-- Step 2 of `submitAnswer` (the deterministic pre-filter): `some` with
the forced evaluation and the logged state when an edge case fires, `none`
when the external evaluator must be consulted. -/
def preFilter (answerText : String) (timeTakenSeconds : ℚ) (s1 : InterviewState) :
    Option (RawEval × InterviewState) :=
  if isEmptyAnswer answerText then
    some (emptyAnswerEval, pushLog "[EDGE CASE] Empty answer detected. Forcing score to 0." s1)
  else if timeTakenSeconds * 1000 < INTERVIEW_POLICY.TIMING.MIN_ANSWER_TIME_MS ∧ 5 < jsLength answerText then
    some (spamAnswerEval, pushLog "[EDGE CASE] Response time below biological threshold. Flagged as Spam." s1)
  else none

/-- Steps 2-3 of `submitAnswer`: the pre-filter, else the external
evaluator (switching `evaluationMode` on its first fallback signal). -/
def runEvaluation (extEval : Question → String → RawEval) (question : Question)
    (answerText : String) (timeTakenSeconds : ℚ) (s1 : InterviewState) :
    RawEval × InterviewState :=
  match preFilter answerText timeTakenSeconds s1 with
  | some p => p
  | none =>
    let result := extEval question answerText
    if result.isFallback = true ∧ s1.evaluationMode ≠ EvaluationMode.FALLBACK_RULE_BASED then
      (result, pushLog "[WARN] External AI Unavailable. Switched to Deterministic Fallback Mode."
        { s1 with evaluationMode := EvaluationMode.FALLBACK_RULE_BASED })
    else (result, s1)

/-- Step E of `submitAnswer`: log when a skill-gap penalty applies. -/
def logGap (penalty : ℚ) (s : InterviewState) : InterviewState :=
  if 0 < penalty then pushLog "[POLICY] Skill Gap penalty applied." s else s

/-- Step G of `submitAnswer`: log the difficulty adaptation decision. -/
def logAdapt (nextDiff : Difficulty) (s : InterviewState) : InterviewState :=
  if nextDiff ≠ s.currentDifficulty then
    if s.difficultyCeiling = some nextDiff ∧ s.currentDifficulty = nextDiff then
      pushLog "[ADAPT] Adaptation blocked by Policy Ceiling." s
    else pushLog "[ADAPT] Difficulty transitioning." s
  else s

/-- The body of `submitAnswer` past its two guards: freeze, evaluate,
score, adapt, record the turn, check termination; paired with the notified
states (the frozen state, then whatever the tail notifies). -/
def submitPipeline (extEval : Question → String → RawEval) (question : Question) (now : ℤ)
    (answerText : String) (timeTakenSeconds : ℚ) (s : InterviewState) :
    InterviewState × List InterviewState :=
  let s1 := freeze s
  let rawAndState := runEvaluation extEval question answerText timeTakenSeconds s1
      let rawEvaluation := rawAndState.1
      let s2 := rawAndState.2
      let baseScore := LogicCore.calculateScore
        { accuracy := rawEvaluation.accuracy, clarity := rawEvaluation.clarity
          depth := rawEvaluation.depth, relevance := rawEvaluation.relevance }
      let timed := applyTimeLogic timeTakenSeconds s2
      let s3 := timed.1
      let timePenalty := timed.2
      let gap := LogicCore.checkSkillGap question.targetSkill s3.detectedSkillGaps
      let s4 := logGap gap.penalty s3
      let finalScore := max 0 (baseScore - timePenalty - gap.penalty)
      let s5 := pushLog "[SCORE] Final score computed." s4
      let nextDiff := LogicCore.nextDifficulty s5.currentDifficulty finalScore s5.difficultyCeiling
      let s6 := logAdapt nextDiff s5
      let s7 := applyStrikes finalScore s6
      let turn : InterviewTurn :=
        { question := question
          answer := answerText
          evaluation :=
            { accuracy := rawEvaluation.accuracy, clarity := rawEvaluation.clarity
              depth := rawEvaluation.depth, relevance := rawEvaluation.relevance
              totalScore := baseScore
              feedback := if rawEvaluation.feedback = "" then "Processed by Policy Engine" else rawEvaluation.feedback
              timeTakenSeconds := timeTakenSeconds
              timePenalty := timePenalty
              finalScore := finalScore
              skillGapPenalty := some gap.penalty
              isFallback := some rawEvaluation.isFallback }
          difficultyBefore := s7.currentDifficulty
          difficultyAfter := nextDiff
          timestamp := now
          criticalFailure := finalScore ≤ INTERVIEW_POLICY.SCORING.CRITICAL_FAIL_SCORE }
      let s8 :=
        { s7 with turns := s7.turns ++ [turn]
                  scoreHistory := s7.scoreHistory ++ [finalScore]
                  currentDifficulty := nextDiff
                  activeQuestion := none }
      let fin := finishSubmit s8
      (fin.1, s1 :: fin.2)

/-- `submitAnswer({answerText, timeTakenSeconds})`.  `extEval` is the
injected external evaluator (`evaluateAnswer` of `services/gemini.ts`,
which internally degrades to `FallbackRegistry.evaluate`); `now` is
`Date.now()`.  Throws (`Except.error`) without an active question; warns
and returns unchanged outside `INTERVIEWING` (no notify); otherwise runs
`submitPipeline`. -/
def submitAnswer (extEval : Question → String → RawEval) (now : ℤ)
    (answerText : String) (timeTakenSeconds : ℚ) (s : InterviewState) :
    Except String (InterviewState × List InterviewState) :=
  match s.activeQuestion with
  | none => Except.error ("Cannot submit answer: No active question.")
  | some question =>
    if s.status ≠ Status.INTERVIEWING then Except.ok (s, [])
    else Except.ok (submitPipeline extEval question now answerText timeTakenSeconds s)

/-- `reset()`. -/
def reset (_s : InterviewState) : InterviewState × List InterviewState :=
  let s1 := getInitialState
  (s1, [s1])

end InterviewEngine

/-! ## Observations of the engine

`Step s s' em` relates a pre-state to the post-state and the notified
states of one public operation; `Observable` closes the initial state
under stepping and under being handed to a subscriber. -/

/-- One invocation of a public engine operation. -/
inductive Step : InterviewState → InterviewState → List InterviewState → Prop
  | analyze (s : InterviewState) :
      Step s (InterviewEngine.startAnalysis s).1 (InterviewEngine.startAnalysis s).2
  | initSession (jd : JobDescriptionData) (resume : ResumeData) (s : InterviewState) :
      Step s (InterviewEngine.initializeSession jd resume s).1
        (InterviewEngine.initializeSession jd resume s).2
  | gen (s : InterviewState) :
      Step s (InterviewEngine.setGenerating s).1 (InterviewEngine.setGenerating s).2
  | present (q : Question) (s : InterviewState) :
      Step s (InterviewEngine.presentQuestion q s).1 (InterviewEngine.presentQuestion q s).2
  | start (q : Question) (s : InterviewState) :
      Step s (InterviewEngine.startInterview q s).1 (InterviewEngine.startInterview q s).2
  | submit (extEval : Question → String → RawEval) (now : ℤ) (answerText : String)
      (timeTakenSeconds : ℚ) (s s' : InterviewState) (em : List InterviewState)
      (h : InterviewEngine.submitAnswer extEval now answerText timeTakenSeconds s
        = Except.ok (s', em)) :
      Step s s' em
  | doReset (s : InterviewState) :
      Step s (InterviewEngine.reset s).1 (InterviewEngine.reset s).2

/-- A state the presentation layer can ever see: reachable through the
public operations, or delivered by a `notify()` along the way. -/
inductive Observable : InterviewState → Prop
  | init : Observable InterviewEngine.getInitialState
  | next (s s' : InterviewState) (em : List InterviewState) :
      Observable s → Step s s' em → Observable s'
  | notified (s s' : InterviewState) (em : List InterviewState) (e : InterviewState) :
      Observable s → Step s s' em → e ∈ em → Observable e

/-! ## The reference semantics of `notify` / `getState`

The source publishes state with

  `public getState() { return this.state; }`
  `private notify() { this.subscribers.forEach(cb => cb(this.state)); }`

— both hand out `this.state` itself, the very object the engine keeps
mutating (the presentation layer copies it on receipt: `App.tsx` spreads
the received state into a new object, commenting that "the engine mutates
state in place").  To reason about what a subscriber's own mutation does,
object identity is modelled with a heap of session-state objects indexed
by address. -/

/-- A heap of `InterviewState` objects, indexed by address. -/
def Heap : Type := ℕ → InterviewState

/-- Writing an object: JS mutation of the object at address `a`. -/
def heapWrite (h : Heap) (a : ℕ) (v : InterviewState) : Heap :=
  fun x => if x = a then v else h x

/-- The engine's only reference cell: `private state: InterviewState`. -/
structure EngineRef where
  stateAddr : ℕ

/-- The address `notify()` passes to every subscriber: `cb(this.state)`
delivers the engine's own state object, not a copy. -/
def notifyDeliveredAddr (e : EngineRef) : ℕ := e.stateAddr

/-- Modelled from the spec: the address a snapshot-publishing `notify`
would deliver — a fresh address holding a copy of the state (the spec's
"immutable snapshots"); the source does not do this. -/
def snapshotDeliveredAddr (_e : EngineRef) (fresh : ℕ) : ℕ := fresh

/-! ## Verification auxiliaries

Characterizations, observation helpers and concrete test data used by the
theorems below; none of these alters the engine model. -/

/-- The `levels` index of a difficulty (the total order Easy < Medium < Hard). -/
def Difficulty.toIdx : Difficulty → ℕ
  | Difficulty.Easy => 0
  | Difficulty.Medium => 1
  | Difficulty.Hard => 2

/-- The net effect of the strike system on the consecutive-weak-answer
counter: a characterization of `applyStrikes` used by the theorems. -/
def strikeUpdate (finalScore : ℚ) (n : ℕ) : ℕ :=
  if finalScore ≤ INTERVIEW_POLICY.SCORING.CRITICAL_FAIL_SCORE then
    n + INTERVIEW_POLICY.TERMINATION.CRITICAL_FAIL_STRIKES
  else if finalScore ≤ INTERVIEW_POLICY.SCORING.WEAK_SCORE then n + 1
  else 0

/-- The difficulty-transition rule as the spec words it: escalate one level
on a strong score (saturating at Hard), downgrade one level on a weak score
(saturating at Easy), otherwise unchanged; then clamp down to the ceiling
whenever the proposal exceeds it.  Stated from the spec to compare against
`LogicCore.nextDifficulty`. -/
def specNextDifficulty (current : Difficulty) (score : ℚ) (ceiling : Option Difficulty) :
    Difficulty :=
  let proposal :=
    if INTERVIEW_POLICY.SCORING.STRONG_SCORE ≤ score then
      match current with
      | Difficulty.Easy => Difficulty.Medium
      | Difficulty.Medium => Difficulty.Hard
      | Difficulty.Hard => Difficulty.Hard
    else if score ≤ INTERVIEW_POLICY.SCORING.WEAK_SCORE then
      match current with
      | Difficulty.Hard => Difficulty.Medium
      | Difficulty.Medium => Difficulty.Easy
      | Difficulty.Easy => Difficulty.Easy
    else current
  match ceiling with
  | some cap => if cap.toIdx < proposal.toIdx then cap else proposal
  | none => proposal

/-- The post-state of a successful `submitAnswer`, for writing concrete
runs (the error case returns the input unchanged). -/
def afterSubmit (extEval : Question → String → RawEval) (now : ℤ)
    (answerText : String) (timeTakenSeconds : ℚ) (s : InterviewState) : InterviewState :=
  match InterviewEngine.submitAnswer extEval now answerText timeTakenSeconds s with
  | Except.ok p => p.1
  | Except.error _ => s

/-- A stub external evaluator returning the same four criteria everywhere
(an `evaluateAnswer` that succeeded, so `isFallback := false`). -/
def constEval (c : ℚ) : Question → String → RawEval :=
  fun _ _ =>
    { accuracy := c, clarity := c, depth := c, relevance := c
      feedback := "stub feedback", isFallback := false }

/-- A concrete question (from the fallback pool). -/
def q0 : Question where
  id := "fallback-q4"
  text := "Describe the CSS Box Model."
  targetSkill := "CSS"
  difficulty := Difficulty.Easy
  expectedKeywords := ["margin", "border", "padding", "content"]

/-- A concrete plausible answer (non-empty, longer than 5 characters). -/
def ansOK : String := "The box model wraps content in padding, border and margin."

/-- The state after presenting `q0` to a fresh engine. -/
def sPresented : InterviewState := (InterviewEngine.presentQuestion q0 InterviewEngine.getInitialState).1

/-- The C4 scenario, round 1: a weak (but not critical) answer. -/
def w1 : InterviewState := afterSubmit (constEval 4) 0 ansOK 10 sPresented

/-- The C4 scenario, round 2: the weak answer repeated. -/
def w2 : InterviewState := afterSubmit (constEval 4) 0 ansOK 10 (InterviewEngine.presentQuestion q0 w1).1

/-- The C4 scenario, round 3: a strong answer. -/
def w3 : InterviewState := afterSubmit (constEval 9) 0 ansOK 10 (InterviewEngine.presentQuestion q0 w2).1

/-- The turn `submitPipeline` appends, in terms of the raw evaluation and
the kernel outputs (proved equal to the pipeline's record below). -/
def recordedTurn (raw : RawEval) (q : Question) (now : ℤ) (a : String) (t : ℚ)
    (s : InterviewState) : InterviewTurn :=
  let base := LogicCore.calculateScore
    { accuracy := raw.accuracy, clarity := raw.clarity, depth := raw.depth, relevance := raw.relevance }
  let tp := (LogicCore.calculateTimeLogic t).penalty
  let gp := (LogicCore.checkSkillGap q.targetSkill s.detectedSkillGaps).penalty
  let fs := max 0 (base - tp - gp)
  { question := q
    answer := a
    evaluation :=
      { accuracy := raw.accuracy, clarity := raw.clarity, depth := raw.depth, relevance := raw.relevance
        totalScore := base
        feedback := if raw.feedback = "" then "Processed by Policy Engine" else raw.feedback
        timeTakenSeconds := t
        timePenalty := tp
        finalScore := fs
        skillGapPenalty := some gp
        isFallback := some raw.isFallback }
    difficultyBefore := s.currentDifficulty
    difficultyAfter := LogicCore.nextDifficulty s.currentDifficulty fs s.difficultyCeiling
    timestamp := now
    criticalFailure := decide (fs ≤ INTERVIEW_POLICY.SCORING.CRITICAL_FAIL_SCORE) }

/-- A concrete role: two critical skills, both missing from `r0`. -/
def jd0 : JobDescriptionData where
  roleTitle := "Frontend Engineer"
  primarySkills := ["React", "AWS"]
  secondarySkills := []
  complexityLevel := ComplexityLevel.Mid
  description := "role description"

/-- A concrete candidate with no listed skills. -/
def r0 : ResumeData where
  candidateName := "Candidate"
  skills := []
  experienceYears := 3
  primaryRole := "Developer"

/-- The state after initializing a session whose primary-skill match rate
(0 of 2) is under the 60% threshold: the difficulty ceiling gets set. -/
def ceilState : InterviewState := (InterviewEngine.initializeSession jd0 r0 InterviewEngine.getInitialState).1

/-- The ceiling invariant: the ceiling is either unset or the policy cap
level, and the current difficulty never exceeds a set ceiling. -/
def CeilingInv (s : InterviewState) : Prop :=
  (s.difficultyCeiling = none
      ∨ s.difficultyCeiling = some INTERVIEW_POLICY.DIFFICULTY.CEILING.CAP_LEVEL)
    ∧ ∀ cap, s.difficultyCeiling = some cap → s.currentDifficulty.toIdx ≤ cap.toIdx

/-- A concrete recorded turn, for building test states. -/
def turn0 : InterviewTurn := recordedTurn InterviewEngine.emptyAnswerEval q0 0 "" 70 InterviewEngine.getInitialState

/-- A concrete heap: every address holds the initial state. -/
def heap0 : Heap := fun _ => InterviewEngine.getInitialState

/-- The engine object with its state at address 0. -/
def engine0 : EngineRef := EngineRef.mk 0

/-- A mutation a subscriber could perform on the value `notify` handed it. -/
def subscriberMutation : InterviewState :=
  { InterviewEngine.getInitialState with status := Status.TERMINATED }

/-! ## Lemmas: how each pipeline stage transforms the state -/

namespace InterviewEngine

@[simp] lemma pushLog_status (m : String) (s : InterviewState) : (pushLog m s).status = s.status := rfl

@[simp] lemma pushLog_currentDifficulty (m : String) (s : InterviewState) : (pushLog m s).currentDifficulty = s.currentDifficulty := rfl

@[simp] lemma pushLog_evaluationMode (m : String) (s : InterviewState) : (pushLog m s).evaluationMode = s.evaluationMode := rfl

@[simp] lemma pushLog_activeQuestion (m : String) (s : InterviewState) : (pushLog m s).activeQuestion = s.activeQuestion := rfl

@[simp] lemma pushLog_turns (m : String) (s : InterviewState) : (pushLog m s).turns = s.turns := rfl

@[simp] lemma pushLog_scoreHistory (m : String) (s : InterviewState) : (pushLog m s).scoreHistory = s.scoreHistory := rfl

@[simp] lemma pushLog_consecutiveWeakAnswers (m : String) (s : InterviewState) : (pushLog m s).consecutiveWeakAnswers = s.consecutiveWeakAnswers := rfl

@[simp] lemma pushLog_timeViolations (m : String) (s : InterviewState) : (pushLog m s).timeViolations = s.timeViolations := rfl

@[simp] lemma pushLog_detectedSkillGaps (m : String) (s : InterviewState) : (pushLog m s).detectedSkillGaps = s.detectedSkillGaps := rfl

@[simp] lemma pushLog_difficultyCeiling (m : String) (s : InterviewState) : (pushLog m s).difficultyCeiling = s.difficultyCeiling := rfl

@[simp] lemma pushLog_terminationReason (m : String) (s : InterviewState) : (pushLog m s).terminationReason = s.terminationReason := rfl

@[simp] lemma pushLog_config (m : String) (s : InterviewState) : (pushLog m s).config = s.config := rfl

@[simp] lemma freeze_status (s : InterviewState) : (freeze s).status = Status.EVALUATING := rfl

@[simp] lemma freeze_currentDifficulty (s : InterviewState) : (freeze s).currentDifficulty = s.currentDifficulty := rfl

@[simp] lemma freeze_evaluationMode (s : InterviewState) : (freeze s).evaluationMode = s.evaluationMode := rfl

@[simp] lemma freeze_activeQuestion (s : InterviewState) : (freeze s).activeQuestion = s.activeQuestion := rfl

@[simp] lemma freeze_turns (s : InterviewState) : (freeze s).turns = s.turns := rfl

@[simp] lemma freeze_scoreHistory (s : InterviewState) : (freeze s).scoreHistory = s.scoreHistory := rfl

@[simp] lemma freeze_consecutiveWeakAnswers (s : InterviewState) : (freeze s).consecutiveWeakAnswers = s.consecutiveWeakAnswers := rfl

@[simp] lemma freeze_timeViolations (s : InterviewState) : (freeze s).timeViolations = s.timeViolations := rfl

@[simp] lemma freeze_detectedSkillGaps (s : InterviewState) : (freeze s).detectedSkillGaps = s.detectedSkillGaps := rfl

@[simp] lemma freeze_difficultyCeiling (s : InterviewState) : (freeze s).difficultyCeiling = s.difficultyCeiling := rfl

@[simp] lemma freeze_terminationReason (s : InterviewState) : (freeze s).terminationReason = s.terminationReason := rfl

@[simp] lemma freeze_config (s : InterviewState) : (freeze s).config = s.config := rfl

/-- `runEvaluation` only ever touches the evaluation mode and the log. -/
lemma runEvaluation_snd_eq (ev : Question → String → RawEval) (q : Question) (a : String)
    (t : ℚ) (s1 : InterviewState) :
    ∃ m lg, (runEvaluation ev q a t s1).2 = { s1 with evaluationMode := m, logs := lg } := by
  unfold runEvaluation preFilter
  by_cases h1 : isEmptyAnswer a = true
  · simp only [if_pos h1]
    exact ⟨_, _, rfl⟩
  · by_cases h2 : t * 1000 < INTERVIEW_POLICY.TIMING.MIN_ANSWER_TIME_MS ∧ 5 < jsLength a
    · simp only [if_neg h1, if_pos h2]
      exact ⟨_, _, rfl⟩
    · by_cases h3 : (ev q a).isFallback = true ∧ s1.evaluationMode ≠ EvaluationMode.FALLBACK_RULE_BASED
      · simp only [if_neg h1, if_neg h2, if_pos h3]
        exact ⟨_, _, rfl⟩
      · simp only [if_neg h1, if_neg h2, if_neg h3]
        exact ⟨_, _, rfl⟩

@[simp] lemma runEvaluation_snd_status (ev : Question → String → RawEval) (q : Question) (a : String) (t : ℚ) (s1 : InterviewState) :
    (runEvaluation ev q a t s1).2.status = s1.status := by
  obtain ⟨m, lg, h⟩ := runEvaluation_snd_eq ev q a t s1
  rw [h]

@[simp] lemma runEvaluation_snd_currentDifficulty (ev : Question → String → RawEval) (q : Question) (a : String) (t : ℚ) (s1 : InterviewState) :
    (runEvaluation ev q a t s1).2.currentDifficulty = s1.currentDifficulty := by
  obtain ⟨m, lg, h⟩ := runEvaluation_snd_eq ev q a t s1
  rw [h]

@[simp] lemma runEvaluation_snd_activeQuestion (ev : Question → String → RawEval) (q : Question) (a : String) (t : ℚ) (s1 : InterviewState) :
    (runEvaluation ev q a t s1).2.activeQuestion = s1.activeQuestion := by
  obtain ⟨m, lg, h⟩ := runEvaluation_snd_eq ev q a t s1
  rw [h]

@[simp] lemma runEvaluation_snd_turns (ev : Question → String → RawEval) (q : Question) (a : String) (t : ℚ) (s1 : InterviewState) :
    (runEvaluation ev q a t s1).2.turns = s1.turns := by
  obtain ⟨m, lg, h⟩ := runEvaluation_snd_eq ev q a t s1
  rw [h]

@[simp] lemma runEvaluation_snd_scoreHistory (ev : Question → String → RawEval) (q : Question) (a : String) (t : ℚ) (s1 : InterviewState) :
    (runEvaluation ev q a t s1).2.scoreHistory = s1.scoreHistory := by
  obtain ⟨m, lg, h⟩ := runEvaluation_snd_eq ev q a t s1
  rw [h]

@[simp] lemma runEvaluation_snd_consecutiveWeakAnswers (ev : Question → String → RawEval) (q : Question) (a : String) (t : ℚ) (s1 : InterviewState) :
    (runEvaluation ev q a t s1).2.consecutiveWeakAnswers = s1.consecutiveWeakAnswers := by
  obtain ⟨m, lg, h⟩ := runEvaluation_snd_eq ev q a t s1
  rw [h]

@[simp] lemma runEvaluation_snd_timeViolations (ev : Question → String → RawEval) (q : Question) (a : String) (t : ℚ) (s1 : InterviewState) :
    (runEvaluation ev q a t s1).2.timeViolations = s1.timeViolations := by
  obtain ⟨m, lg, h⟩ := runEvaluation_snd_eq ev q a t s1
  rw [h]

@[simp] lemma runEvaluation_snd_detectedSkillGaps (ev : Question → String → RawEval) (q : Question) (a : String) (t : ℚ) (s1 : InterviewState) :
    (runEvaluation ev q a t s1).2.detectedSkillGaps = s1.detectedSkillGaps := by
  obtain ⟨m, lg, h⟩ := runEvaluation_snd_eq ev q a t s1
  rw [h]

@[simp] lemma runEvaluation_snd_difficultyCeiling (ev : Question → String → RawEval) (q : Question) (a : String) (t : ℚ) (s1 : InterviewState) :
    (runEvaluation ev q a t s1).2.difficultyCeiling = s1.difficultyCeiling := by
  obtain ⟨m, lg, h⟩ := runEvaluation_snd_eq ev q a t s1
  rw [h]

@[simp] lemma runEvaluation_snd_terminationReason (ev : Question → String → RawEval) (q : Question) (a : String) (t : ℚ) (s1 : InterviewState) :
    (runEvaluation ev q a t s1).2.terminationReason = s1.terminationReason := by
  obtain ⟨m, lg, h⟩ := runEvaluation_snd_eq ev q a t s1
  rw [h]

/-- The empty/whitespace branch of the pre-filter wins first. -/
lemma runEvaluation_fst_empty (ev : Question → String → RawEval) (q : Question) (a : String)
    (t : ℚ) (s1 : InterviewState) (h : isEmptyAnswer a = true) :
    (runEvaluation ev q a t s1).1 = emptyAnswerEval := by
  unfold runEvaluation preFilter
  simp only [if_pos h]

/-- The spam branch fires for a non-empty fast long answer. -/
lemma runEvaluation_fst_spam (ev : Question → String → RawEval) (q : Question) (a : String)
    (t : ℚ) (s1 : InterviewState) (h : isEmptyAnswer a = false)
    (h2 : t * 1000 < INTERVIEW_POLICY.TIMING.MIN_ANSWER_TIME_MS ∧ 5 < jsLength a) :
    (runEvaluation ev q a t s1).1 = spamAnswerEval := by
  unfold runEvaluation preFilter
  have h1 : ¬(isEmptyAnswer a = true) := by simp [h]
  simp only [if_neg h1, if_pos h2]

/-- Outside both edge cases the external evaluator's verdict is used. -/
lemma runEvaluation_fst_ext (ev : Question → String → RawEval) (q : Question) (a : String)
    (t : ℚ) (s1 : InterviewState) (h : isEmptyAnswer a = false)
    (h2 : ¬(t * 1000 < INTERVIEW_POLICY.TIMING.MIN_ANSWER_TIME_MS ∧ 5 < jsLength a)) :
    (runEvaluation ev q a t s1).1 = ev q a := by
  unfold runEvaluation preFilter
  have h1 : ¬(isEmptyAnswer a = true) := by simp [h]
  by_cases h3 : (ev q a).isFallback = true ∧ s1.evaluationMode ≠ EvaluationMode.FALLBACK_RULE_BASED
  · simp only [if_neg h1, if_neg h2, if_pos h3]
  · simp only [if_neg h1, if_neg h2, if_neg h3]

/-- `applyTimeLogic` yields the `calculateTimeLogic` penalty and counts a
violation exactly when the kernel flagged one. -/
lemma applyTimeLogic_eq (t : ℚ) (s : InterviewState) :
    ∃ lg, applyTimeLogic t s =
      ({ s with
          timeViolations :=
            s.timeViolations + (if (LogicCore.calculateTimeLogic t).isViolation = true then 1 else 0)
          logs := lg },
        (LogicCore.calculateTimeLogic t).penalty) := by
  unfold applyTimeLogic
  by_cases h : (LogicCore.calculateTimeLogic t).isViolation = true
  · simp only [if_pos h]
    exact ⟨_, rfl⟩
  · simp only [if_neg h, Nat.add_zero]
    exact ⟨_, rfl⟩

/-- `logGap` only appends to the log. -/
lemma logGap_eq (p : ℚ) (s : InterviewState) : ∃ lg, logGap p s = { s with logs := lg } := by
  unfold logGap
  by_cases h : 0 < p
  · simp only [if_pos h]
    exact ⟨_, rfl⟩
  · simp only [if_neg h]
    exact ⟨_, rfl⟩

/-- `logAdapt` only appends to the log. -/
lemma logAdapt_eq (d : Difficulty) (s : InterviewState) : ∃ lg, logAdapt d s = { s with logs := lg } := by
  unfold logAdapt
  by_cases h1 : d ≠ s.currentDifficulty
  · by_cases h2 : s.difficultyCeiling = some d ∧ s.currentDifficulty = d
    · simp only [if_pos h1, if_pos h2]
      exact ⟨_, rfl⟩
    · simp only [if_pos h1, if_neg h2]
      exact ⟨_, rfl⟩
  · simp only [if_neg h1]
    exact ⟨_, rfl⟩

/-- `applyStrikes` updates the consecutive-weak-answer counter by
`strikeUpdate` and otherwise only logs. -/
lemma applyStrikes_eq (fs : ℚ) (s : InterviewState) :
    ∃ lg, applyStrikes fs s =
      { s with consecutiveWeakAnswers := strikeUpdate fs s.consecutiveWeakAnswers, logs := lg } := by
  unfold applyStrikes strikeUpdate
  by_cases h1 : fs ≤ INTERVIEW_POLICY.SCORING.CRITICAL_FAIL_SCORE
  · simp only [if_pos h1]
    exact ⟨_, rfl⟩
  · by_cases h2 : fs ≤ INTERVIEW_POLICY.SCORING.WEAK_SCORE
    · simp only [if_neg h1, if_pos h2]
      exact ⟨_, rfl⟩
    · by_cases h3 : 0 < s.consecutiveWeakAnswers
      · simp only [if_neg h1, if_neg h2, if_pos h3, Nat.add_zero]
        exact ⟨_, rfl⟩
      · have h0 : s.consecutiveWeakAnswers = 0 := Nat.eq_zero_of_not_pos h3
        refine ⟨s.logs, ?_⟩
        simp only [if_neg h1, if_neg h2, if_neg h3, Nat.add_zero]
        rw [← h0]

@[simp] lemma applyTimeLogic_fst_status (t : ℚ) (s : InterviewState) : (applyTimeLogic t s).1.status = s.status := by
  obtain ⟨lg, h⟩ := applyTimeLogic_eq t s
  rw [h]

@[simp] lemma applyTimeLogic_fst_currentDifficulty (t : ℚ) (s : InterviewState) : (applyTimeLogic t s).1.currentDifficulty = s.currentDifficulty := by
  obtain ⟨lg, h⟩ := applyTimeLogic_eq t s
  rw [h]

@[simp] lemma applyTimeLogic_fst_evaluationMode (t : ℚ) (s : InterviewState) : (applyTimeLogic t s).1.evaluationMode = s.evaluationMode := by
  obtain ⟨lg, h⟩ := applyTimeLogic_eq t s
  rw [h]

@[simp] lemma applyTimeLogic_fst_activeQuestion (t : ℚ) (s : InterviewState) : (applyTimeLogic t s).1.activeQuestion = s.activeQuestion := by
  obtain ⟨lg, h⟩ := applyTimeLogic_eq t s
  rw [h]

@[simp] lemma applyTimeLogic_fst_turns (t : ℚ) (s : InterviewState) : (applyTimeLogic t s).1.turns = s.turns := by
  obtain ⟨lg, h⟩ := applyTimeLogic_eq t s
  rw [h]

@[simp] lemma applyTimeLogic_fst_scoreHistory (t : ℚ) (s : InterviewState) : (applyTimeLogic t s).1.scoreHistory = s.scoreHistory := by
  obtain ⟨lg, h⟩ := applyTimeLogic_eq t s
  rw [h]

@[simp] lemma applyTimeLogic_fst_consecutiveWeakAnswers (t : ℚ) (s : InterviewState) : (applyTimeLogic t s).1.consecutiveWeakAnswers = s.consecutiveWeakAnswers := by
  obtain ⟨lg, h⟩ := applyTimeLogic_eq t s
  rw [h]

@[simp] lemma applyTimeLogic_fst_timeViolations (t : ℚ) (s : InterviewState) :
    (applyTimeLogic t s).1.timeViolations
      = s.timeViolations + (if (LogicCore.calculateTimeLogic t).isViolation = true then 1 else 0) := by
  obtain ⟨lg, h⟩ := applyTimeLogic_eq t s
  rw [h]

@[simp] lemma applyTimeLogic_fst_detectedSkillGaps (t : ℚ) (s : InterviewState) : (applyTimeLogic t s).1.detectedSkillGaps = s.detectedSkillGaps := by
  obtain ⟨lg, h⟩ := applyTimeLogic_eq t s
  rw [h]

@[simp] lemma applyTimeLogic_fst_difficultyCeiling (t : ℚ) (s : InterviewState) : (applyTimeLogic t s).1.difficultyCeiling = s.difficultyCeiling := by
  obtain ⟨lg, h⟩ := applyTimeLogic_eq t s
  rw [h]

@[simp] lemma applyTimeLogic_fst_terminationReason (t : ℚ) (s : InterviewState) : (applyTimeLogic t s).1.terminationReason = s.terminationReason := by
  obtain ⟨lg, h⟩ := applyTimeLogic_eq t s
  rw [h]

@[simp] lemma applyTimeLogic_fst_config (t : ℚ) (s : InterviewState) : (applyTimeLogic t s).1.config = s.config := by
  obtain ⟨lg, h⟩ := applyTimeLogic_eq t s
  rw [h]

@[simp] lemma applyTimeLogic_snd (t : ℚ) (s : InterviewState) : (applyTimeLogic t s).2 = (LogicCore.calculateTimeLogic t).penalty := by
  obtain ⟨lg, h⟩ := applyTimeLogic_eq t s
  rw [h]

@[simp] lemma logGap_status (p : ℚ) (s : InterviewState) : (logGap p s).status = s.status := by
  obtain ⟨lg, h⟩ := logGap_eq p s
  rw [h]

@[simp] lemma logGap_currentDifficulty (p : ℚ) (s : InterviewState) : (logGap p s).currentDifficulty = s.currentDifficulty := by
  obtain ⟨lg, h⟩ := logGap_eq p s
  rw [h]

@[simp] lemma logGap_evaluationMode (p : ℚ) (s : InterviewState) : (logGap p s).evaluationMode = s.evaluationMode := by
  obtain ⟨lg, h⟩ := logGap_eq p s
  rw [h]

@[simp] lemma logGap_activeQuestion (p : ℚ) (s : InterviewState) : (logGap p s).activeQuestion = s.activeQuestion := by
  obtain ⟨lg, h⟩ := logGap_eq p s
  rw [h]

@[simp] lemma logGap_turns (p : ℚ) (s : InterviewState) : (logGap p s).turns = s.turns := by
  obtain ⟨lg, h⟩ := logGap_eq p s
  rw [h]

@[simp] lemma logGap_scoreHistory (p : ℚ) (s : InterviewState) : (logGap p s).scoreHistory = s.scoreHistory := by
  obtain ⟨lg, h⟩ := logGap_eq p s
  rw [h]

@[simp] lemma logGap_consecutiveWeakAnswers (p : ℚ) (s : InterviewState) : (logGap p s).consecutiveWeakAnswers = s.consecutiveWeakAnswers := by
  obtain ⟨lg, h⟩ := logGap_eq p s
  rw [h]

@[simp] lemma logGap_timeViolations (p : ℚ) (s : InterviewState) : (logGap p s).timeViolations = s.timeViolations := by
  obtain ⟨lg, h⟩ := logGap_eq p s
  rw [h]

@[simp] lemma logGap_detectedSkillGaps (p : ℚ) (s : InterviewState) : (logGap p s).detectedSkillGaps = s.detectedSkillGaps := by
  obtain ⟨lg, h⟩ := logGap_eq p s
  rw [h]

@[simp] lemma logGap_difficultyCeiling (p : ℚ) (s : InterviewState) : (logGap p s).difficultyCeiling = s.difficultyCeiling := by
  obtain ⟨lg, h⟩ := logGap_eq p s
  rw [h]

@[simp] lemma logGap_terminationReason (p : ℚ) (s : InterviewState) : (logGap p s).terminationReason = s.terminationReason := by
  obtain ⟨lg, h⟩ := logGap_eq p s
  rw [h]

@[simp] lemma logGap_config (p : ℚ) (s : InterviewState) : (logGap p s).config = s.config := by
  obtain ⟨lg, h⟩ := logGap_eq p s
  rw [h]

@[simp] lemma logAdapt_status (d : Difficulty) (s : InterviewState) : (logAdapt d s).status = s.status := by
  obtain ⟨lg, h⟩ := logAdapt_eq d s
  rw [h]

@[simp] lemma logAdapt_currentDifficulty (d : Difficulty) (s : InterviewState) : (logAdapt d s).currentDifficulty = s.currentDifficulty := by
  obtain ⟨lg, h⟩ := logAdapt_eq d s
  rw [h]

@[simp] lemma logAdapt_evaluationMode (d : Difficulty) (s : InterviewState) : (logAdapt d s).evaluationMode = s.evaluationMode := by
  obtain ⟨lg, h⟩ := logAdapt_eq d s
  rw [h]

@[simp] lemma logAdapt_activeQuestion (d : Difficulty) (s : InterviewState) : (logAdapt d s).activeQuestion = s.activeQuestion := by
  obtain ⟨lg, h⟩ := logAdapt_eq d s
  rw [h]

@[simp] lemma logAdapt_turns (d : Difficulty) (s : InterviewState) : (logAdapt d s).turns = s.turns := by
  obtain ⟨lg, h⟩ := logAdapt_eq d s
  rw [h]

@[simp] lemma logAdapt_scoreHistory (d : Difficulty) (s : InterviewState) : (logAdapt d s).scoreHistory = s.scoreHistory := by
  obtain ⟨lg, h⟩ := logAdapt_eq d s
  rw [h]

@[simp] lemma logAdapt_consecutiveWeakAnswers (d : Difficulty) (s : InterviewState) : (logAdapt d s).consecutiveWeakAnswers = s.consecutiveWeakAnswers := by
  obtain ⟨lg, h⟩ := logAdapt_eq d s
  rw [h]

@[simp] lemma logAdapt_timeViolations (d : Difficulty) (s : InterviewState) : (logAdapt d s).timeViolations = s.timeViolations := by
  obtain ⟨lg, h⟩ := logAdapt_eq d s
  rw [h]

@[simp] lemma logAdapt_detectedSkillGaps (d : Difficulty) (s : InterviewState) : (logAdapt d s).detectedSkillGaps = s.detectedSkillGaps := by
  obtain ⟨lg, h⟩ := logAdapt_eq d s
  rw [h]

@[simp] lemma logAdapt_difficultyCeiling (d : Difficulty) (s : InterviewState) : (logAdapt d s).difficultyCeiling = s.difficultyCeiling := by
  obtain ⟨lg, h⟩ := logAdapt_eq d s
  rw [h]

@[simp] lemma logAdapt_terminationReason (d : Difficulty) (s : InterviewState) : (logAdapt d s).terminationReason = s.terminationReason := by
  obtain ⟨lg, h⟩ := logAdapt_eq d s
  rw [h]

@[simp] lemma logAdapt_config (d : Difficulty) (s : InterviewState) : (logAdapt d s).config = s.config := by
  obtain ⟨lg, h⟩ := logAdapt_eq d s
  rw [h]

@[simp] lemma applyStrikes_status (fs : ℚ) (s : InterviewState) : (applyStrikes fs s).status = s.status := by
  obtain ⟨lg, h⟩ := applyStrikes_eq fs s
  rw [h]

@[simp] lemma applyStrikes_currentDifficulty (fs : ℚ) (s : InterviewState) : (applyStrikes fs s).currentDifficulty = s.currentDifficulty := by
  obtain ⟨lg, h⟩ := applyStrikes_eq fs s
  rw [h]

@[simp] lemma applyStrikes_evaluationMode (fs : ℚ) (s : InterviewState) : (applyStrikes fs s).evaluationMode = s.evaluationMode := by
  obtain ⟨lg, h⟩ := applyStrikes_eq fs s
  rw [h]

@[simp] lemma applyStrikes_activeQuestion (fs : ℚ) (s : InterviewState) : (applyStrikes fs s).activeQuestion = s.activeQuestion := by
  obtain ⟨lg, h⟩ := applyStrikes_eq fs s
  rw [h]

@[simp] lemma applyStrikes_turns (fs : ℚ) (s : InterviewState) : (applyStrikes fs s).turns = s.turns := by
  obtain ⟨lg, h⟩ := applyStrikes_eq fs s
  rw [h]

@[simp] lemma applyStrikes_scoreHistory (fs : ℚ) (s : InterviewState) : (applyStrikes fs s).scoreHistory = s.scoreHistory := by
  obtain ⟨lg, h⟩ := applyStrikes_eq fs s
  rw [h]

@[simp] lemma applyStrikes_consecutiveWeakAnswers (fs : ℚ) (s : InterviewState) :
    (applyStrikes fs s).consecutiveWeakAnswers = strikeUpdate fs s.consecutiveWeakAnswers := by
  obtain ⟨lg, h⟩ := applyStrikes_eq fs s
  rw [h]

@[simp] lemma applyStrikes_timeViolations (fs : ℚ) (s : InterviewState) : (applyStrikes fs s).timeViolations = s.timeViolations := by
  obtain ⟨lg, h⟩ := applyStrikes_eq fs s
  rw [h]

@[simp] lemma applyStrikes_detectedSkillGaps (fs : ℚ) (s : InterviewState) : (applyStrikes fs s).detectedSkillGaps = s.detectedSkillGaps := by
  obtain ⟨lg, h⟩ := applyStrikes_eq fs s
  rw [h]

@[simp] lemma applyStrikes_difficultyCeiling (fs : ℚ) (s : InterviewState) : (applyStrikes fs s).difficultyCeiling = s.difficultyCeiling := by
  obtain ⟨lg, h⟩ := applyStrikes_eq fs s
  rw [h]

@[simp] lemma applyStrikes_terminationReason (fs : ℚ) (s : InterviewState) : (applyStrikes fs s).terminationReason = s.terminationReason := by
  obtain ⟨lg, h⟩ := applyStrikes_eq fs s
  rw [h]

@[simp] lemma applyStrikes_config (fs : ℚ) (s : InterviewState) : (applyStrikes fs s).config = s.config := by
  obtain ⟨lg, h⟩ := applyStrikes_eq fs s
  rw [h]

/-- `finishSubmit` notifies exactly its own post-state. -/
lemma finishSubmit_snd (s : InterviewState) : (finishSubmit s).2 = [(finishSubmit s).1] := by
  unfold finishSubmit checkTermination terminate
  split_ifs <;> rfl

/-- `finishSubmit` only moves the status to a post-turn phase, records a
termination reason, and logs. -/
lemma finishSubmit_fst_eq (s : InterviewState) :
    ∃ st tr lg,
      (finishSubmit s).1 = { s with status := st, terminationReason := tr, logs := lg }
        ∧ (st = Status.GENERATING ∨ st = Status.TERMINATED ∨ st = Status.COMPLETED) := by
  unfold finishSubmit checkTermination terminate
  split_ifs with h1 h2 h3
  · exact ⟨Status.TERMINATED, _, _, rfl, Or.inr (Or.inl rfl)⟩
  · exact ⟨Status.TERMINATED, _, _, rfl, Or.inr (Or.inl rfl)⟩
  · exact ⟨Status.COMPLETED, s.terminationReason, _, rfl, Or.inr (Or.inr rfl)⟩
  · exact ⟨Status.GENERATING, s.terminationReason, s.logs, rfl, Or.inl rfl⟩

@[simp] lemma finishSubmit_currentDifficulty (s : InterviewState) : (finishSubmit s).1.currentDifficulty = s.currentDifficulty := by
  obtain ⟨st, tr, lg, h, _⟩ := finishSubmit_fst_eq s
  rw [h]

@[simp] lemma finishSubmit_evaluationMode (s : InterviewState) : (finishSubmit s).1.evaluationMode = s.evaluationMode := by
  obtain ⟨st, tr, lg, h, _⟩ := finishSubmit_fst_eq s
  rw [h]

@[simp] lemma finishSubmit_activeQuestion (s : InterviewState) : (finishSubmit s).1.activeQuestion = s.activeQuestion := by
  obtain ⟨st, tr, lg, h, _⟩ := finishSubmit_fst_eq s
  rw [h]

@[simp] lemma finishSubmit_turns (s : InterviewState) : (finishSubmit s).1.turns = s.turns := by
  obtain ⟨st, tr, lg, h, _⟩ := finishSubmit_fst_eq s
  rw [h]

@[simp] lemma finishSubmit_scoreHistory (s : InterviewState) : (finishSubmit s).1.scoreHistory = s.scoreHistory := by
  obtain ⟨st, tr, lg, h, _⟩ := finishSubmit_fst_eq s
  rw [h]

@[simp] lemma finishSubmit_consecutiveWeakAnswers (s : InterviewState) : (finishSubmit s).1.consecutiveWeakAnswers = s.consecutiveWeakAnswers := by
  obtain ⟨st, tr, lg, h, _⟩ := finishSubmit_fst_eq s
  rw [h]

@[simp] lemma finishSubmit_timeViolations (s : InterviewState) : (finishSubmit s).1.timeViolations = s.timeViolations := by
  obtain ⟨st, tr, lg, h, _⟩ := finishSubmit_fst_eq s
  rw [h]

@[simp] lemma finishSubmit_detectedSkillGaps (s : InterviewState) : (finishSubmit s).1.detectedSkillGaps = s.detectedSkillGaps := by
  obtain ⟨st, tr, lg, h, _⟩ := finishSubmit_fst_eq s
  rw [h]

@[simp] lemma finishSubmit_difficultyCeiling (s : InterviewState) : (finishSubmit s).1.difficultyCeiling = s.difficultyCeiling := by
  obtain ⟨st, tr, lg, h, _⟩ := finishSubmit_fst_eq s
  rw [h]

@[simp] lemma finishSubmit_config (s : InterviewState) : (finishSubmit s).1.config = s.config := by
  obtain ⟨st, tr, lg, h, _⟩ := finishSubmit_fst_eq s
  rw [h]

/-- The status a `finishSubmit` post-state can carry. -/
lemma finishSubmit_status (s : InterviewState) :
    (finishSubmit s).1.status = Status.GENERATING ∨ (finishSubmit s).1.status = Status.TERMINATED
      ∨ (finishSubmit s).1.status = Status.COMPLETED := by
  obtain ⟨st, tr, lg, h, hst⟩ := finishSubmit_fst_eq s
  rw [h]
  exact hst

/-- `submitPipeline` notifies exactly the frozen state followed by its own
post-state. -/
lemma submitPipeline_snd (ev : Question → String → RawEval) (q : Question) (now : ℤ)
    (a : String) (t : ℚ) (s : InterviewState) :
    (submitPipeline ev q now a t s).2 = [freeze s, (submitPipeline ev q now a t s).1] := by
  simp only [submitPipeline]
  rw [finishSubmit_snd]

end InterviewEngine

/-! ## Lemmas: arithmetic of the scoring kernel -/

open InterviewEngine

/-- `roundTo` is the identity on values already exact at `d` decimals. -/
lemma roundTo_eq_self (d : ℕ) (x : ℚ) (n : ℤ) (h : x * (10 : ℚ) ^ d = (n : ℚ)) :
    roundTo d x = x := by
  unfold roundTo
  rw [h]
  have h1 : ⌊(n : ℚ) + 1 / 2⌋ = n := by
    rw [Int.floor_int_add]
    norm_num
  rw [h1]
  have h2 : ((10 : ℚ) ^ d) ≠ 0 := by positivity
  field_simp
  linarith [h]

/-- The four equal criteria `(c, c, c, c)` score exactly `c` (weights sum
to 1 and `c` is exact at 2 decimals). -/
lemma calculateScore_const (c : ℚ) (n : ℤ) (h : c * 100 = (n : ℚ)) :
    LogicCore.calculateScore { accuracy := c, clarity := c, depth := c, relevance := c } = c := by
  unfold LogicCore.calculateScore
  unfold INTERVIEW_POLICY.SCORING.DIMENSIONS.ACCURACY.weight
    INTERVIEW_POLICY.SCORING.DIMENSIONS.DEPTH.weight
    INTERVIEW_POLICY.SCORING.DIMENSIONS.CLARITY.weight
    INTERVIEW_POLICY.SCORING.DIMENSIONS.RELEVANCE.weight
  have hsum : c * 0.40 + c * 0.30 + c * 0.15 + c * 0.15 = c := by ring_nf
  rw [hsum]
  refine roundTo_eq_self 2 c n ?_
  rw [show ((10 : ℚ) ^ (2 : ℕ)) = 100 by norm_num]
  exact h

/-- No penalty and no violation at or under the penalty start. -/
lemma calculateTimeLogic_ok (t : ℚ) (h : t ≤ 60) :
    LogicCore.calculateTimeLogic t = { penalty := 0, isViolation := false } := by
  unfold LogicCore.calculateTimeLogic INTERVIEW_POLICY.TIMING.PENALTY_START_SEC
  rw [if_pos h]

/-- Over the penalty start: a violation, and the stepped penalty. -/
lemma calculateTimeLogic_late (t : ℚ) (h : 60 < t) :
    LogicCore.calculateTimeLogic t =
      { penalty := roundTo 1 ((⌈(t - 60) / 5⌉ : ℚ) * 0.5), isViolation := true } := by
  unfold LogicCore.calculateTimeLogic INTERVIEW_POLICY.TIMING.PENALTY_START_SEC
    INTERVIEW_POLICY.TIMING.PENALTY_STEP_SEC INTERVIEW_POLICY.TIMING.PENALTY_PER_STEP
  rw [if_neg (not_le.mpr h)]

/-- Half-integer multiples are exact at 1 decimal. -/
lemma roundTo_half (k : ℤ) : roundTo 1 ((k : ℚ) * 0.5) = (k : ℚ) * 0.5 := by
  refine roundTo_eq_self 1 _ (k * 5) ?_
  push_cast
  ring

/-- The time penalty is never negative. -/
lemma calculateTimeLogic_penalty_nonneg (t : ℚ) :
    0 ≤ (LogicCore.calculateTimeLogic t).penalty := by
  by_cases h : t ≤ 60
  · rw [calculateTimeLogic_ok t h]
  · have hlt : 60 < t := not_le.mp h
    rw [calculateTimeLogic_late t hlt]
    have hpos : (0 : ℤ) < ⌈(t - 60) / 5⌉ := by
      rw [Int.ceil_pos]
      exact div_pos (by linarith) (by norm_num)
    rw [roundTo_half]
    have : (0 : ℚ) ≤ (⌈(t - 60) / 5⌉ : ℚ) := by exact_mod_cast le_of_lt hpos
    nlinarith

/-- The skill-gap penalty is one of 0, 0.5, 1.5 — never negative. -/
lemma checkSkillGap_penalty_nonneg (ts : String) (gaps : List SkillGapEntry) :
    0 ≤ (LogicCore.checkSkillGap ts gaps).penalty := by
  unfold LogicCore.checkSkillGap
  cases hf : gaps.find? (fun g => jsToLowerCase g.skill == jsToLowerCase ts) with
  | none => norm_num
  | some g =>
    obtain ⟨sk, ty⟩ := g
    cases ty with
    | PRIMARY =>
      simp only [INTERVIEW_POLICY.RESUME_JD_LOGIC.PENALTIES.PRIMARY_MISSING]
      norm_num
    | SECONDARY =>
      simp only [INTERVIEW_POLICY.RESUME_JD_LOGIC.PENALTIES.SECONDARY_MISSING]
      norm_num

/-- All-zero criteria give base score 0. -/
lemma calculateScore_zeros :
    LogicCore.calculateScore { accuracy := 0, clarity := 0, depth := 0, relevance := 0 } = 0 :=
  calculateScore_const 0 0 (by norm_num)

/-- The two guards of `submitAnswer` passed: the pipeline runs. -/
lemma submitAnswer_run (ev : Question → String → RawEval) (now : ℤ) (a : String) (t : ℚ)
    (s : InterviewState) (q : Question)
    (hq : s.activeQuestion = some q) (hst : s.status = Status.INTERVIEWING) :
    submitAnswer ev now a t s = Except.ok (submitPipeline ev q now a t s) := by
  simp [submitAnswer, hq, hst]

/-- Every successful `submitAnswer` either bounced off the status guard or
ran the pipeline on the active question. -/
lemma submitAnswer_ok_cases (ev : Question → String → RawEval) (now : ℤ) (a : String) (t : ℚ)
    (s s' : InterviewState) (em : List InterviewState)
    (h : submitAnswer ev now a t s = Except.ok (s', em)) :
    (s' = s ∧ em = [] ∧ s.status ≠ Status.INTERVIEWING)
      ∨ ∃ q, s.activeQuestion = some q ∧ s.status = Status.INTERVIEWING
          ∧ s' = (submitPipeline ev q now a t s).1 ∧ em = (submitPipeline ev q now a t s).2 := by
  cases hA : s.activeQuestion with
  | none => simp [submitAnswer, hA] at h
  | some q =>
    by_cases hst : s.status = Status.INTERVIEWING
    · rw [submitAnswer_run ev now a t s q hA hst] at h
      obtain ⟨h1, h2⟩ := Prod.mk.injEq .. ▸ (Except.ok.injEq .. ▸ h)
      exact Or.inr ⟨q, rfl, hst, h1.symm, h2.symm⟩
    · rw [submitAnswer, hA] at h
      simp only [if_pos hst] at h
      obtain ⟨h1, h2⟩ := Prod.mk.injEq .. ▸ (Except.ok.injEq .. ▸ h)
      exact Or.inl ⟨h1.symm, h2.symm, hst⟩

/-- The turn recorded by `submitPipeline` is `recordedTurn` of the raw
evaluation. -/
lemma submitPipeline_turns (ev : Question → String → RawEval) (q : Question) (now : ℤ)
    (a : String) (t : ℚ) (s : InterviewState) :
    (submitPipeline ev q now a t s).1.turns
      = s.turns ++ [recordedTurn ((runEvaluation ev q a t (freeze s)).1) q now a t s] := by
  simp only [submitPipeline]
  simp [recordedTurn]

/-- The score history grows by the recorded final score. -/
lemma submitPipeline_scoreHistory (ev : Question → String → RawEval) (q : Question) (now : ℤ)
    (a : String) (t : ℚ) (s : InterviewState) :
    (submitPipeline ev q now a t s).1.scoreHistory
      = s.scoreHistory
          ++ [(recordedTurn ((runEvaluation ev q a t (freeze s)).1) q now a t s).evaluation.finalScore] := by
  simp only [submitPipeline]
  simp [recordedTurn]

/-- The post-turn consecutive-weak-answer counter. -/
lemma submitPipeline_consecutiveWeakAnswers (ev : Question → String → RawEval) (q : Question)
    (now : ℤ) (a : String) (t : ℚ) (s : InterviewState) :
    (submitPipeline ev q now a t s).1.consecutiveWeakAnswers
      = strikeUpdate
          ((recordedTurn ((runEvaluation ev q a t (freeze s)).1) q now a t s).evaluation.finalScore)
          s.consecutiveWeakAnswers := by
  simp only [submitPipeline]
  simp [recordedTurn]

/-- The post-turn violation counter. -/
lemma submitPipeline_timeViolations (ev : Question → String → RawEval) (q : Question) (now : ℤ)
    (a : String) (t : ℚ) (s : InterviewState) :
    (submitPipeline ev q now a t s).1.timeViolations
      = s.timeViolations + (if (LogicCore.calculateTimeLogic t).isViolation = true then 1 else 0) := by
  simp only [submitPipeline]
  simp

/-- The post-turn difficulty is the kernel's transition. -/
lemma submitPipeline_currentDifficulty (ev : Question → String → RawEval) (q : Question)
    (now : ℤ) (a : String) (t : ℚ) (s : InterviewState) :
    (submitPipeline ev q now a t s).1.currentDifficulty
      = LogicCore.nextDifficulty s.currentDifficulty
          ((recordedTurn ((runEvaluation ev q a t (freeze s)).1) q now a t s).evaluation.finalScore)
          s.difficultyCeiling := by
  simp only [submitPipeline]
  simp [recordedTurn]

/-- The pipeline clears the active question. -/
lemma submitPipeline_activeQuestion (ev : Question → String → RawEval) (q : Question) (now : ℤ)
    (a : String) (t : ℚ) (s : InterviewState) :
    (submitPipeline ev q now a t s).1.activeQuestion = none := by
  simp only [submitPipeline]
  simp

/-- The pipeline leaves the skill-gap table alone. -/
lemma submitPipeline_detectedSkillGaps (ev : Question → String → RawEval) (q : Question)
    (now : ℤ) (a : String) (t : ℚ) (s : InterviewState) :
    (submitPipeline ev q now a t s).1.detectedSkillGaps = s.detectedSkillGaps := by
  simp only [submitPipeline]
  simp

/-- The pipeline leaves the difficulty ceiling alone. -/
lemma submitPipeline_difficultyCeiling (ev : Question → String → RawEval) (q : Question)
    (now : ℤ) (a : String) (t : ℚ) (s : InterviewState) :
    (submitPipeline ev q now a t s).1.difficultyCeiling = s.difficultyCeiling := by
  simp only [submitPipeline]
  simp

/-- The pipeline's post-state is `finishSubmit` of a state carrying the
updated counters and turn list. -/
lemma submitPipeline_fin (ev : Question → String → RawEval) (q : Question) (now : ℤ)
    (a : String) (t : ℚ) (s : InterviewState) :
    ∃ u, (submitPipeline ev q now a t s).1 = (finishSubmit u).1
      ∧ u.timeViolations
          = s.timeViolations + (if (LogicCore.calculateTimeLogic t).isViolation = true then 1 else 0)
      ∧ u.consecutiveWeakAnswers
          = strikeUpdate
              ((recordedTurn ((runEvaluation ev q a t (freeze s)).1) q now a t s).evaluation.finalScore)
              s.consecutiveWeakAnswers
      ∧ u.turns = s.turns ++ [recordedTurn ((runEvaluation ev q a t (freeze s)).1) q now a t s] := by
  simp only [submitPipeline]
  refine ⟨_, rfl, ?_, ?_, ?_⟩ <;> simp [recordedTurn]

/-- The pipeline's post-state status is a post-turn phase. -/
lemma submitPipeline_status (ev : Question → String → RawEval) (q : Question) (now : ℤ)
    (a : String) (t : ℚ) (s : InterviewState) :
    (submitPipeline ev q now a t s).1.status = Status.GENERATING
      ∨ (submitPipeline ev q now a t s).1.status = Status.TERMINATED
      ∨ (submitPipeline ev q now a t s).1.status = Status.COMPLETED := by
  simp only [submitPipeline]
  exact finishSubmit_status _

/-- `initializeSession` in closed form: back to ready-`IDLE`, difficulty
from the complexity mapping, ceiling either freshly capped or untouched;
one notification of the post-state. -/
lemma initializeSession_eq (jd : JobDescriptionData) (r : ResumeData) (s : InterviewState) :
    ∃ gaps ceil lg,
      initializeSession jd r s =
        ({ s with status := Status.IDLE
                  currentDifficulty := INTERVIEW_POLICY.DIFFICULTY.INITIAL jd.complexityLevel
                  detectedSkillGaps := gaps
                  difficultyCeiling := ceil
                  logs := lg },
          [{ s with status := Status.IDLE
                    currentDifficulty := INTERVIEW_POLICY.DIFFICULTY.INITIAL jd.complexityLevel
                    detectedSkillGaps := gaps
                    difficultyCeiling := ceil
                    logs := lg }])
        ∧ (ceil = some INTERVIEW_POLICY.DIFFICULTY.CEILING.CAP_LEVEL ∨ ceil = s.difficultyCeiling) := by
  unfold initializeSession
  by_cases hc :
    (if 0 < jd.primarySkills.length then
        ((jd.primarySkills.length : ℚ)
            - ((jd.primarySkills.filter (fun skill =>
                !((r.skills.map (fun sk => jsTrim (jsToLowerCase sk.name))).contains
                  (jsTrim (jsToLowerCase skill))))).length : ℚ))
          / (jd.primarySkills.length : ℚ)
      else 1) < INTERVIEW_POLICY.DIFFICULTY.CEILING.CRITICAL_GAP_MATCH_THRESHOLD
  · simp only [if_pos hc]
    exact ⟨_, _, _, rfl, Or.inl rfl⟩
  · simp only [if_neg hc]
    exact ⟨_, _, _, rfl, Or.inr rfl⟩

/-- Initial-state closure under steps and notifications, for an arbitrary
invariant. -/
lemma observable_inv {P : InterviewState → Prop} (hinit : P getInitialState)
    (hstep : ∀ s s' em, P s → Step s s' em → P s' ∧ ∀ e ∈ em, P e) :
    ∀ s, Observable s → P s := by
  intro s h
  induction h with
  | init => exact hinit
  | next s s' em hs hst ih => exact (hstep s s' em ih hst).1
  | notified s s' em e hs hst he ih => exact (hstep s s' em ih hst).2 e he

@[simp] lemma presentQuestion_fst_activeQuestion (q : Question) (s : InterviewState) :
    (presentQuestion q s).1.activeQuestion = some q := rfl

@[simp] lemma presentQuestion_fst_status (q : Question) (s : InterviewState) :
    (presentQuestion q s).1.status = Status.INTERVIEWING := rfl

@[simp] lemma presentQuestion_fst_consecutiveWeakAnswers (q : Question) (s : InterviewState) :
    (presentQuestion q s).1.consecutiveWeakAnswers = s.consecutiveWeakAnswers := rfl

@[simp] lemma presentQuestion_fst_timeViolations (q : Question) (s : InterviewState) :
    (presentQuestion q s).1.timeViolations = s.timeViolations := rfl

@[simp] lemma presentQuestion_fst_detectedSkillGaps (q : Question) (s : InterviewState) :
    (presentQuestion q s).1.detectedSkillGaps = s.detectedSkillGaps := rfl

@[simp] lemma presentQuestion_fst_difficultyCeiling (q : Question) (s : InterviewState) :
    (presentQuestion q s).1.difficultyCeiling = s.difficultyCeiling := rfl

@[simp] lemma presentQuestion_fst_currentDifficulty (q : Question) (s : InterviewState) :
    (presentQuestion q s).1.currentDifficulty = s.currentDifficulty := rfl

/-- A normal-path submit (non-empty, plausible timing, external verdict
with base score `b ≥ 0`, no skill gaps, no time violation) updates the
strike counter by `strikeUpdate b` and keeps the gap table empty. -/
lemma afterSubmit_run_cnt (ev : Question → String → RawEval) (now : ℤ) (a : String) (t : ℚ)
    (s : InterviewState) (q : Question) (b : ℚ)
    (hq : s.activeQuestion = some q) (hst : s.status = Status.INTERVIEWING)
    (hne : isEmptyAnswer a = false)
    (hns : ¬(t * 1000 < INTERVIEW_POLICY.TIMING.MIN_ANSWER_TIME_MS ∧ 5 < jsLength a))
    (hgaps : s.detectedSkillGaps = [])
    (ht : t ≤ 60)
    (hbase : LogicCore.calculateScore
        { accuracy := (ev q a).accuracy, clarity := (ev q a).clarity
          depth := (ev q a).depth, relevance := (ev q a).relevance } = b)
    (hb : 0 ≤ b) :
    (afterSubmit ev now a t s).consecutiveWeakAnswers = strikeUpdate b s.consecutiveWeakAnswers
      ∧ (afterSubmit ev now a t s).detectedSkillGaps = [] := by
  have hrun : afterSubmit ev now a t s = (submitPipeline ev q now a t s).1 := by
    unfold afterSubmit
    rw [submitAnswer_run ev now a t s q hq hst]
  have hraw : (runEvaluation ev q a t (freeze s)).1 = ev q a :=
    runEvaluation_fst_ext ev q a t (freeze s) hne hns
  constructor
  · rw [hrun, submitPipeline_consecutiveWeakAnswers]
    have hfs : (recordedTurn ((runEvaluation ev q a t (freeze s)).1) q now a t s).evaluation.finalScore = b := by
      simp only [recordedTurn, hraw]
      rw [hbase, calculateTimeLogic_ok t ht, hgaps]
      rw [show LogicCore.checkSkillGap q.targetSkill [] = { penalty := 0, type := none } from rfl]
      simp only []
      rw [show b - 0 - 0 = b by ring]
      exact max_eq_right hb
    rw [hfs]
  · rw [hrun, submitPipeline_detectedSkillGaps, hgaps]

/-! ## The claims -/

/-- C3: the time penalty is 0 with no violation recorded for
`timeTaken ≤ PENALTY_START_SEC` (60); above it, the penalty is
`ceil((timeTaken − 60) / 5) * 0.5` rounded to 1 decimal and a violation is
recorded, incrementing the violation counter; in particular `timeTaken = 65`
yields 0.5 and `timeTaken = 66` yields 1.0. -/
theorem time_penalty_spec (t : ℚ) (s : InterviewState) :
    (t ≤ INTERVIEW_POLICY.TIMING.PENALTY_START_SEC →
      LogicCore.calculateTimeLogic t = { penalty := 0, isViolation := false }
        ∧ (applyTimeLogic t s).1.timeViolations = s.timeViolations)
    ∧ (INTERVIEW_POLICY.TIMING.PENALTY_START_SEC < t →
      LogicCore.calculateTimeLogic t =
          { penalty :=
              roundTo 1
                ((⌈(t - INTERVIEW_POLICY.TIMING.PENALTY_START_SEC)
                    / INTERVIEW_POLICY.TIMING.PENALTY_STEP_SEC⌉ : ℚ)
                  * INTERVIEW_POLICY.TIMING.PENALTY_PER_STEP)
            isViolation := true }
        ∧ (applyTimeLogic t s).1.timeViolations = s.timeViolations + 1)
    ∧ LogicCore.calculateTimeLogic 65 = { penalty := 0.5, isViolation := true }
    ∧ LogicCore.calculateTimeLogic 66 = { penalty := 1.0, isViolation := true } := by
  have h65 : LogicCore.calculateTimeLogic 65 = { penalty := 0.5, isViolation := true } := by
    rw [calculateTimeLogic_late 65 (by norm_num)]
    rw [show ((65 : ℚ) - 60) / 5 = 1 by norm_num, Int.ceil_one, roundTo_half]
    norm_num
  have h66 : LogicCore.calculateTimeLogic 66 = { penalty := 1.0, isViolation := true } := by
    rw [calculateTimeLogic_late 66 (by norm_num)]
    rw [show ((66 : ℚ) - 60) / 5 = 6 / 5 by norm_num]
    rw [show ⌈(6 / 5 : ℚ)⌉ = (2 : ℤ) by rw [Int.ceil_eq_iff]; norm_num, roundTo_half]
    norm_num
  refine ⟨?_, ?_, h65, h66⟩
  · intro h
    have he := calculateTimeLogic_ok t h
    refine ⟨he, ?_⟩
    rw [applyTimeLogic_fst_timeViolations, he]
    norm_num
  · intro h
    have he := calculateTimeLogic_late t h
    refine ⟨he, ?_⟩
    rw [applyTimeLogic_fst_timeViolations, he]
    norm_num

/-- C3 witness: at `timeTaken = 10` no violation is recorded; at
`timeTaken = 65` a violation increments the counter. -/
theorem time_penalty_spec_witness :
    ((10 : ℚ) ≤ INTERVIEW_POLICY.TIMING.PENALTY_START_SEC
      ∧ LogicCore.calculateTimeLogic 10 = { penalty := 0, isViolation := false }
      ∧ (applyTimeLogic 10 getInitialState).1.timeViolations = getInitialState.timeViolations)
    ∧ (INTERVIEW_POLICY.TIMING.PENALTY_START_SEC < (65 : ℚ)
      ∧ (applyTimeLogic 65 getInitialState).1.timeViolations
          = getInitialState.timeViolations + 1) := by
  have h1 : (10 : ℚ) ≤ INTERVIEW_POLICY.TIMING.PENALTY_START_SEC := by
    norm_num [INTERVIEW_POLICY.TIMING.PENALTY_START_SEC]
  have h2 : INTERVIEW_POLICY.TIMING.PENALTY_START_SEC < (65 : ℚ) := by
    norm_num [INTERVIEW_POLICY.TIMING.PENALTY_START_SEC]
  exact ⟨⟨h1, (time_penalty_spec 10 getInitialState).1 h1⟩,
    ⟨h2, ((time_penalty_spec 65 getInitialState).2.1 h2).2⟩⟩

/-- C2: after every completed `submitAnswer`, the termination rules fire in
strict priority order — more than `MAX_VIOLATIONS_ALLOWED` (2) time
violations terminates with a reason citing the violation count; else
`STRIKE_LIMIT` (3) consecutive weak answers terminates with a reason citing
the strike count; else `MAX_QUESTIONS` (5) recorded turns completes
(`COMPLETED`, not `TERMINATED`); else the session proceeds to `GENERATING`. -/
theorem termination_priority :
    (INTERVIEW_POLICY.TIMING.MAX_VIOLATIONS_ALLOWED = 2
      ∧ INTERVIEW_POLICY.TERMINATION.STRIKE_LIMIT = 3
      ∧ INTERVIEW_POLICY.TERMINATION.MAX_QUESTIONS = 5)
    ∧ (∀ s : InterviewState,
        INTERVIEW_POLICY.TIMING.MAX_VIOLATIONS_ALLOWED < s.timeViolations →
        (finishSubmit s).1.status = Status.TERMINATED
          ∧ (finishSubmit s).1.terminationReason
              = some (timeViolationReason s.timeViolations
                  INTERVIEW_POLICY.TIMING.MAX_VIOLATIONS_ALLOWED))
    ∧ (∀ s : InterviewState,
        s.timeViolations ≤ INTERVIEW_POLICY.TIMING.MAX_VIOLATIONS_ALLOWED →
        INTERVIEW_POLICY.TERMINATION.STRIKE_LIMIT ≤ s.consecutiveWeakAnswers →
        (finishSubmit s).1.status = Status.TERMINATED
          ∧ (finishSubmit s).1.terminationReason = some (strikeReason s.consecutiveWeakAnswers))
    ∧ (∀ s : InterviewState,
        s.timeViolations ≤ INTERVIEW_POLICY.TIMING.MAX_VIOLATIONS_ALLOWED →
        s.consecutiveWeakAnswers < INTERVIEW_POLICY.TERMINATION.STRIKE_LIMIT →
        INTERVIEW_POLICY.TERMINATION.MAX_QUESTIONS ≤ s.turns.length →
        (finishSubmit s).1.status = Status.COMPLETED
          ∧ (finishSubmit s).1.terminationReason = s.terminationReason)
    ∧ (∀ s : InterviewState,
        s.timeViolations ≤ INTERVIEW_POLICY.TIMING.MAX_VIOLATIONS_ALLOWED →
        s.consecutiveWeakAnswers < INTERVIEW_POLICY.TERMINATION.STRIKE_LIMIT →
        s.turns.length < INTERVIEW_POLICY.TERMINATION.MAX_QUESTIONS →
        (finishSubmit s).1 = { s with status := Status.GENERATING })
    ∧ (∀ ev now a t s q, s.activeQuestion = some q → s.status = Status.INTERVIEWING →
        ∃ s' em u, submitAnswer ev now a t s = Except.ok (s', em)
          ∧ s' = (finishSubmit u).1
          ∧ u.timeViolations = s'.timeViolations
          ∧ u.consecutiveWeakAnswers = s'.consecutiveWeakAnswers
          ∧ u.turns.length = s'.turns.length) := by
  refine ⟨⟨rfl, rfl, rfl⟩, ?_, ?_, ?_, ?_, ?_⟩
  · intro s h
    unfold finishSubmit checkTermination terminate
    rw [if_pos h]
    exact ⟨rfl, rfl⟩
  · intro s h1 h2
    unfold finishSubmit checkTermination terminate
    rw [if_neg (not_lt.mpr h1), if_pos h2]
    exact ⟨rfl, rfl⟩
  · intro s h1 h2 h3
    unfold finishSubmit checkTermination
    rw [if_neg (not_lt.mpr h1), if_neg (not_le.mpr h2), if_pos h3]
    exact ⟨rfl, rfl⟩
  · intro s h1 h2 h3
    unfold finishSubmit checkTermination
    rw [if_neg (not_lt.mpr h1), if_neg (not_le.mpr h2), if_neg (not_le.mpr h3)]
  · intro ev now a t s q hq hst
    obtain ⟨u, hu, hTV, hCNT, hTS⟩ := submitPipeline_fin ev q now a t s
    refine ⟨(submitPipeline ev q now a t s).1, (submitPipeline ev q now a t s).2, u,
      ?_, hu, ?_, ?_, ?_⟩
    · rw [submitAnswer_run ev now a t s q hq hst]
    · rw [hu, finishSubmit_timeViolations]
    · rw [hu, finishSubmit_consecutiveWeakAnswers]
    · rw [hu, finishSubmit_turns]

/-- C2 witness: concrete states exercising each branch — 3 violations
terminate; 3 strikes terminate; 5 turns complete; a fresh state proceeds
to `GENERATING`; and a real `submitAnswer` ends in a `finishSubmit` state. -/
theorem termination_priority_witness :
    (INTERVIEW_POLICY.TIMING.MAX_VIOLATIONS_ALLOWED
        < ({ getInitialState with timeViolations := 3 } : InterviewState).timeViolations
      ∧ (finishSubmit { getInitialState with timeViolations := 3 }).1.status = Status.TERMINATED
      ∧ (finishSubmit { getInitialState with timeViolations := 3 }).1.terminationReason
          = some (timeViolationReason 3 INTERVIEW_POLICY.TIMING.MAX_VIOLATIONS_ALLOWED))
    ∧ ((finishSubmit { getInitialState with consecutiveWeakAnswers := 3 }).1.status
        = Status.TERMINATED
      ∧ (finishSubmit { getInitialState with consecutiveWeakAnswers := 3 }).1.terminationReason
          = some (strikeReason 3))
    ∧ (finishSubmit { getInitialState with turns := List.replicate 5 turn0 }).1.status
        = Status.COMPLETED
    ∧ (finishSubmit getInitialState).1 = { getInitialState with status := Status.GENERATING }
    ∧ (∃ s' em u, submitAnswer (constEval 4) 0 ansOK 10 sPresented = Except.ok (s', em)
        ∧ s' = (finishSubmit u).1
        ∧ u.timeViolations = s'.timeViolations
        ∧ u.consecutiveWeakAnswers = s'.consecutiveWeakAnswers
        ∧ u.turns.length = s'.turns.length) := by
  refine ⟨⟨by decide, termination_priority.2.1 _ (by decide)⟩, ?_, ?_, ?_, ?_⟩
  · exact termination_priority.2.2.1 _ (by decide) (by decide)
  · refine (termination_priority.2.2.2.1 _ (by decide) (by decide) ?_).1
    simp [List.length_replicate, INTERVIEW_POLICY.TERMINATION.MAX_QUESTIONS]
  · exact termination_priority.2.2.2.2.1 _ (by decide) (by decide) (by decide)
  · exact termination_priority.2.2.2.2.2 (constEval 4) 0 ansOK 10 sPresented q0 rfl rfl

/-- C7: the four dimension weights (0.40, 0.30, 0.15, 0.15) sum to 1; the
base score is their weighted sum rounded to 2 decimals, so criteria
(10,10,10,10) score exactly 10; and every recorded final score equals
`max 0 (base − timePenalty − gapPenalty)` — clamped at 0 below, never
clamped above. -/
theorem weighted_score_final_clamp :
    (INTERVIEW_POLICY.SCORING.DIMENSIONS.ACCURACY.weight
        + INTERVIEW_POLICY.SCORING.DIMENSIONS.DEPTH.weight
        + INTERVIEW_POLICY.SCORING.DIMENSIONS.CLARITY.weight
        + INTERVIEW_POLICY.SCORING.DIMENSIONS.RELEVANCE.weight = 1)
    ∧ (∀ c : EvaluationCriteria,
        LogicCore.calculateScore c
          = roundTo 2
              (c.accuracy * INTERVIEW_POLICY.SCORING.DIMENSIONS.ACCURACY.weight
                + c.depth * INTERVIEW_POLICY.SCORING.DIMENSIONS.DEPTH.weight
                + c.clarity * INTERVIEW_POLICY.SCORING.DIMENSIONS.CLARITY.weight
                + c.relevance * INTERVIEW_POLICY.SCORING.DIMENSIONS.RELEVANCE.weight))
    ∧ LogicCore.calculateScore { accuracy := 10, clarity := 10, depth := 10, relevance := 10 } = 10
    ∧ (∀ raw q now a t s,
        (recordedTurn raw q now a t s).evaluation.finalScore
            = max 0
                ((recordedTurn raw q now a t s).evaluation.totalScore
                  - (recordedTurn raw q now a t s).evaluation.timePenalty
                  - (LogicCore.checkSkillGap q.targetSkill s.detectedSkillGaps).penalty)
          ∧ 0 ≤ (recordedTurn raw q now a t s).evaluation.finalScore
          ∧ (0 ≤ (recordedTurn raw q now a t s).evaluation.totalScore
                - (recordedTurn raw q now a t s).evaluation.timePenalty
                - (LogicCore.checkSkillGap q.targetSkill s.detectedSkillGaps).penalty →
              (recordedTurn raw q now a t s).evaluation.finalScore
                = (recordedTurn raw q now a t s).evaluation.totalScore
                  - (recordedTurn raw q now a t s).evaluation.timePenalty
                  - (LogicCore.checkSkillGap q.targetSkill s.detectedSkillGaps).penalty))
    ∧ (∀ ev now a t s q, s.activeQuestion = some q → s.status = Status.INTERVIEWING →
        ∃ s' em, submitAnswer ev now a t s = Except.ok (s', em)
          ∧ s'.turns = s.turns ++ [recordedTurn ((runEvaluation ev q a t (freeze s)).1) q now a t s]) := by
  refine ⟨?_, fun c => rfl, calculateScore_const 10 1000 (by norm_num), ?_, ?_⟩
  · norm_num [INTERVIEW_POLICY.SCORING.DIMENSIONS.ACCURACY.weight,
      INTERVIEW_POLICY.SCORING.DIMENSIONS.DEPTH.weight,
      INTERVIEW_POLICY.SCORING.DIMENSIONS.CLARITY.weight,
      INTERVIEW_POLICY.SCORING.DIMENSIONS.RELEVANCE.weight]
  · intro raw q now a t s
    refine ⟨rfl, le_max_left _ _, fun h => ?_⟩
    exact max_eq_right h
  · intro ev now a t s q hq hst
    exact ⟨_, _, submitAnswer_run ev now a t s q hq hst, submitPipeline_turns ev q now a t s⟩

/-- C7 witness: a full `submitAnswer` from a presented question records
exactly one turn carrying the clamped final score. -/
theorem weighted_score_final_clamp_witness :
    sPresented.activeQuestion = some q0 ∧ sPresented.status = Status.INTERVIEWING
      ∧ ∃ s' em, submitAnswer (constEval 4) 0 ansOK 10 sPresented = Except.ok (s', em)
          ∧ s'.turns = sPresented.turns
              ++ [recordedTurn ((runEvaluation (constEval 4) q0 ansOK 10 (freeze sPresented)).1)
                    q0 0 ansOK 10 sPresented] :=
  ⟨rfl, rfl, weighted_score_final_clamp.2.2.2.2 (constEval 4) 0 ansOK 10 sPresented q0 rfl rfl⟩

/-- C8: the fallback evaluator's reported accuracy is exactly
`min(MAX_SCORE, BASE + keywordHits * KEYWORD_VALUE + lengthBonus)` with
`keywordHits` the count of expected keywords occurring case-insensitively
in the answer, and no criterion it reports ever reaches the evaluator
maximum of 10. -/
theorem fallback_heuristic_capped :
    (∀ q a,
      (FallbackRegistry.evaluate q a).accuracy
          = min INTERVIEW_POLICY.FALLBACK_SCORING.MAX_SCORE
              (INTERVIEW_POLICY.FALLBACK_SCORING.BASE_SCORE
                + ((q.expectedKeywords.filter
                      (fun kw => jsIncludes (jsToLowerCase a) (jsToLowerCase kw))).length : ℚ)
                    * INTERVIEW_POLICY.FALLBACK_SCORING.KEYWORD_MATCH_VALUE
                + (if INTERVIEW_POLICY.FALLBACK_SCORING.LENGTH_THRESHOLD_CHARS ≤ jsLength a
                    then INTERVIEW_POLICY.FALLBACK_SCORING.LENGTH_BONUS else 0))
        ∧ (FallbackRegistry.evaluate q a).accuracy < 10
        ∧ (FallbackRegistry.evaluate q a).clarity < 10
        ∧ (FallbackRegistry.evaluate q a).depth < 10
        ∧ (FallbackRegistry.evaluate q a).relevance < 10)
    ∧ (FallbackRegistry.evaluate q0 ansOK).accuracy = 8.5 := by
  have hmax : INTERVIEW_POLICY.FALLBACK_SCORING.MAX_SCORE ≤ (10 : ℚ) := by
    norm_num [INTERVIEW_POLICY.FALLBACK_SCORING.MAX_SCORE]
  have main : ∀ q a,
      (FallbackRegistry.evaluate q a).accuracy
          = min INTERVIEW_POLICY.FALLBACK_SCORING.MAX_SCORE
              (INTERVIEW_POLICY.FALLBACK_SCORING.BASE_SCORE
                + ((q.expectedKeywords.filter
                      (fun kw => jsIncludes (jsToLowerCase a) (jsToLowerCase kw))).length : ℚ)
                    * INTERVIEW_POLICY.FALLBACK_SCORING.KEYWORD_MATCH_VALUE
                + (if INTERVIEW_POLICY.FALLBACK_SCORING.LENGTH_THRESHOLD_CHARS ≤ jsLength a
                    then INTERVIEW_POLICY.FALLBACK_SCORING.LENGTH_BONUS else 0))
        ∧ (FallbackRegistry.evaluate q a).accuracy < 10
        ∧ (FallbackRegistry.evaluate q a).clarity < 10
        ∧ (FallbackRegistry.evaluate q a).depth < 10
        ∧ (FallbackRegistry.evaluate q a).relevance < 10 := by
    intro q a
    unfold FallbackRegistry.evaluate
    simp only []
    constructor
    · by_cases hs : jsLength a < INTERVIEW_POLICY.FALLBACK_SCORING.LENGTH_THRESHOLD_CHARS
      · rw [if_pos hs, if_neg (not_le.mpr hs)]
        rw [min_eq_right (le_trans (min_le_right _ _) hmax), min_comm]
      · rw [if_neg hs, if_pos (not_lt.mp hs)]
        rw [min_eq_right (le_trans (min_le_right _ _) hmax), min_comm]
    · refine ⟨?_, by norm_num, ?_, ?_⟩
      · exact lt_of_le_of_lt (le_trans (min_le_right _ _) (min_le_right _ _))
          (by norm_num [INTERVIEW_POLICY.FALLBACK_SCORING.MAX_SCORE])
      · by_cases hs : jsLength a < INTERVIEW_POLICY.FALLBACK_SCORING.LENGTH_THRESHOLD_CHARS
        · rw [if_pos hs]
          norm_num
        · rw [if_neg hs]
          norm_num
      · by_cases hk : 0 < (q.expectedKeywords.filter
            (fun kw => jsIncludes (jsToLowerCase a) (jsToLowerCase kw))).length
        · rw [if_pos hk]
          norm_num
        · rw [if_neg hk]
          norm_num
  refine ⟨main, ?_⟩
  rw [(main q0 ansOK).1]
  rw [show (q0.expectedKeywords.filter
      (fun kw => jsIncludes (jsToLowerCase ansOK) (jsToLowerCase kw))).length = 4 from by decide]
  rw [if_pos (show INTERVIEW_POLICY.FALLBACK_SCORING.LENGTH_THRESHOLD_CHARS ≤ jsLength ansOK from by decide)]
  norm_num [INTERVIEW_POLICY.FALLBACK_SCORING.MAX_SCORE, INTERVIEW_POLICY.FALLBACK_SCORING.BASE_SCORE,
    INTERVIEW_POLICY.FALLBACK_SCORING.KEYWORD_MATCH_VALUE, INTERVIEW_POLICY.FALLBACK_SCORING.LENGTH_BONUS]

/-- C4: strike accounting on every `submitAnswer` — a final score at or
under the critical-fail threshold (2.0) adds `CRITICAL_FAIL_STRIKES` (2)
strikes; else at or under the weak threshold (4.5) adds exactly 1; else the
counter resets to 0; consequently two weak answers followed by a strong one
leave `consecutiveWeakAnswers` at 0. -/
theorem strike_accounting :
    INTERVIEW_POLICY.TERMINATION.CRITICAL_FAIL_STRIKES = 2
    ∧ (∀ (fs : ℚ) (s : InterviewState),
        (fs ≤ INTERVIEW_POLICY.SCORING.CRITICAL_FAIL_SCORE →
          (applyStrikes fs s).consecutiveWeakAnswers
            = s.consecutiveWeakAnswers + INTERVIEW_POLICY.TERMINATION.CRITICAL_FAIL_STRIKES)
        ∧ (INTERVIEW_POLICY.SCORING.CRITICAL_FAIL_SCORE < fs →
            fs ≤ INTERVIEW_POLICY.SCORING.WEAK_SCORE →
          (applyStrikes fs s).consecutiveWeakAnswers = s.consecutiveWeakAnswers + 1)
        ∧ (INTERVIEW_POLICY.SCORING.WEAK_SCORE < fs →
          (applyStrikes fs s).consecutiveWeakAnswers = 0))
    ∧ (∀ ev now a t s q, s.activeQuestion = some q → s.status = Status.INTERVIEWING →
        ∃ s' em, submitAnswer ev now a t s = Except.ok (s', em)
          ∧ s'.consecutiveWeakAnswers
              = strikeUpdate
                  ((recordedTurn ((runEvaluation ev q a t (freeze s)).1) q now a t s).evaluation.finalScore)
                  s.consecutiveWeakAnswers)
    ∧ (w1.consecutiveWeakAnswers = 1 ∧ w2.consecutiveWeakAnswers = 2
        ∧ w3.consecutiveWeakAnswers = 0) := by
  have hne : isEmptyAnswer ansOK = false := by decide
  have hns : ¬((10 : ℚ) * 1000 < INTERVIEW_POLICY.TIMING.MIN_ANSWER_TIME_MS ∧ 5 < jsLength ansOK) := by
    intro hc
    have := hc.1
    norm_num [INTERVIEW_POLICY.TIMING.MIN_ANSWER_TIME_MS] at this
  have su40 : strikeUpdate 4 0 = 1 := by
    unfold strikeUpdate
    rw [if_neg (by norm_num [INTERVIEW_POLICY.SCORING.CRITICAL_FAIL_SCORE]),
      if_pos (by norm_num [INTERVIEW_POLICY.SCORING.WEAK_SCORE])]
  have su41 : strikeUpdate 4 1 = 2 := by
    unfold strikeUpdate
    rw [if_neg (by norm_num [INTERVIEW_POLICY.SCORING.CRITICAL_FAIL_SCORE]),
      if_pos (by norm_num [INTERVIEW_POLICY.SCORING.WEAK_SCORE])]
  have su92 : strikeUpdate 9 2 = 0 := by
    unfold strikeUpdate
    rw [if_neg (by norm_num [INTERVIEW_POLICY.SCORING.CRITICAL_FAIL_SCORE]),
      if_neg (by norm_num [INTERVIEW_POLICY.SCORING.WEAK_SCORE])]
  have step1 := afterSubmit_run_cnt (constEval 4) 0 ansOK 10 sPresented q0 4 rfl rfl hne hns
    rfl (by norm_num) (calculateScore_const 4 400 (by norm_num)) (by norm_num)
  have h1 : w1.consecutiveWeakAnswers = 1 := by
    have := step1.1
    rw [show sPresented.consecutiveWeakAnswers = 0 from rfl, su40] at this
    exact this
  have hg1 : w1.detectedSkillGaps = [] := step1.2
  have step2 := afterSubmit_run_cnt (constEval 4) 0 ansOK 10 (presentQuestion q0 w1).1 q0 4
    rfl rfl hne hns (by rw [presentQuestion_fst_detectedSkillGaps, hg1]) (by norm_num)
    (calculateScore_const 4 400 (by norm_num)) (by norm_num)
  have h2 : w2.consecutiveWeakAnswers = 2 := by
    have := step2.1
    rw [presentQuestion_fst_consecutiveWeakAnswers, h1, su41] at this
    exact this
  have hg2 : w2.detectedSkillGaps = [] := step2.2
  have step3 := afterSubmit_run_cnt (constEval 9) 0 ansOK 10 (presentQuestion q0 w2).1 q0 9
    rfl rfl hne hns (by rw [presentQuestion_fst_detectedSkillGaps, hg2]) (by norm_num)
    (calculateScore_const 9 900 (by norm_num)) (by norm_num)
  have h3 : w3.consecutiveWeakAnswers = 0 := by
    have := step3.1
    rw [presentQuestion_fst_consecutiveWeakAnswers, h2, su92] at this
    exact this
  refine ⟨rfl, ?_, ?_, h1, h2, h3⟩
  · intro fs s
    refine ⟨?_, ?_, ?_⟩
    · intro h
      rw [applyStrikes_consecutiveWeakAnswers]
      unfold strikeUpdate
      rw [if_pos h]
    · intro hlow hup
      rw [applyStrikes_consecutiveWeakAnswers]
      unfold strikeUpdate
      rw [if_neg (not_le.mpr hlow), if_pos hup]
    · intro h
      rw [applyStrikes_consecutiveWeakAnswers]
      unfold strikeUpdate
      have hcw : INTERVIEW_POLICY.SCORING.CRITICAL_FAIL_SCORE < INTERVIEW_POLICY.SCORING.WEAK_SCORE := by
        norm_num [INTERVIEW_POLICY.SCORING.CRITICAL_FAIL_SCORE, INTERVIEW_POLICY.SCORING.WEAK_SCORE]
      rw [if_neg (by linarith : ¬fs ≤ INTERVIEW_POLICY.SCORING.CRITICAL_FAIL_SCORE),
        if_neg (not_le.mpr h)]
  · intro ev now a t s q hq hst
    refine ⟨(submitPipeline ev q now a t s).1, (submitPipeline ev q now a t s).2, ?_, ?_⟩
    · rw [submitAnswer_run ev now a t s q hq hst]
    · exact submitPipeline_consecutiveWeakAnswers ev q now a t s

/-- C4 witness: a weak answer from a presented question adds one strike
through the full `submitAnswer`. -/
theorem strike_accounting_witness :
    ∃ s' em, submitAnswer (constEval 4) 0 ansOK 10 sPresented = Except.ok (s', em)
      ∧ s'.consecutiveWeakAnswers
          = strikeUpdate
              ((recordedTurn ((runEvaluation (constEval 4) q0 ansOK 10 (freeze sPresented)).1)
                  q0 0 ansOK 10 sPresented).evaluation.finalScore)
              sPresented.consecutiveWeakAnswers :=
  strike_accounting.2.2.1 (constEval 4) 0 ansOK 10 sPresented q0 rfl rfl

/-- The recorded turn for a zero-criteria raw evaluation carries a final
score of exactly 0 (penalties only push the score into the 0-clamp). -/
lemma recordedTurn_zeros_finalScore (raw : RawEval) (q : Question) (now : ℤ) (a : String)
    (t : ℚ) (s : InterviewState)
    (h1 : raw.accuracy = 0) (h2 : raw.clarity = 0) (h3 : raw.depth = 0) (h4 : raw.relevance = 0) :
    (recordedTurn raw q now a t s).evaluation.finalScore = 0 := by
  simp only [recordedTurn]
  rw [h1, h2, h3, h4, calculateScore_zeros]
  have htp := calculateTimeLogic_penalty_nonneg t
  have hgp := checkSkillGap_penalty_nonneg q.targetSkill s.detectedSkillGaps
  exact max_eq_left (by linarith)

/-- Under either edge case the pre-filter decides the evaluation locally:
the two evaluators are never consulted, so any two give identical runs. -/
lemma runEvaluation_edge_indep (ev ev' : Question → String → RawEval) (q : Question)
    (a : String) (t : ℚ) (s1 : InterviewState)
    (hedge : isEmptyAnswer a = true
      ∨ (isEmptyAnswer a = false
          ∧ t * 1000 < INTERVIEW_POLICY.TIMING.MIN_ANSWER_TIME_MS ∧ 5 < jsLength a)) :
    runEvaluation ev q a t s1 = runEvaluation ev' q a t s1 := by
  unfold runEvaluation preFilter
  rcases hedge with h | ⟨h, h2, h3⟩
  · simp only [if_pos h]
  · simp only [if_neg (show ¬(isEmptyAnswer a = true) by simp [h]), if_pos (And.intro h2 h3)]

/-- C6: the edge-case pre-filter of `submitAnswer` — for an empty or
whitespace-only answer, and for an answer longer than 5 characters
submitted under the 2000 ms plausibility threshold, all four criteria are
forced to 0, the turn is flagged as a local fallback, the final score is 0
regardless of time taken or target skill, and no external evaluator is
consulted (any two evaluators produce the identical result). -/
theorem edge_case_prefilter (ev ev' : Question → String → RawEval) (now : ℤ) (a : String)
    (t : ℚ) (s : InterviewState) (q : Question)
    (hq : s.activeQuestion = some q) (hst : s.status = Status.INTERVIEWING)
    (hedge : isEmptyAnswer a = true
      ∨ (isEmptyAnswer a = false
          ∧ t * 1000 < INTERVIEW_POLICY.TIMING.MIN_ANSWER_TIME_MS ∧ 5 < jsLength a)) :
    ∃ s' em raw, submitAnswer ev now a t s = Except.ok (s', em)
      ∧ (raw = emptyAnswerEval ∨ raw = spamAnswerEval)
      ∧ s'.turns = s.turns ++ [recordedTurn raw q now a t s]
      ∧ (recordedTurn raw q now a t s).evaluation.accuracy = 0
      ∧ (recordedTurn raw q now a t s).evaluation.clarity = 0
      ∧ (recordedTurn raw q now a t s).evaluation.depth = 0
      ∧ (recordedTurn raw q now a t s).evaluation.relevance = 0
      ∧ (recordedTurn raw q now a t s).evaluation.isFallback = some true
      ∧ (recordedTurn raw q now a t s).evaluation.finalScore = 0
      ∧ submitAnswer ev now a t s = submitAnswer ev' now a t s := by
  have hindep : submitAnswer ev now a t s = submitAnswer ev' now a t s := by
    rw [submitAnswer_run ev now a t s q hq hst, submitAnswer_run ev' now a t s q hq hst]
    simp only [submitPipeline]
    rw [runEvaluation_edge_indep ev ev' q a t (freeze s) hedge]
  rcases hedge with h | ⟨h, h2, h3⟩
  · refine ⟨(submitPipeline ev q now a t s).1, (submitPipeline ev q now a t s).2,
      emptyAnswerEval, by rw [submitAnswer_run ev now a t s q hq hst], Or.inl rfl, ?_,
      rfl, rfl, rfl, rfl, rfl, recordedTurn_zeros_finalScore _ q now a t s rfl rfl rfl rfl,
      hindep⟩
    rw [submitPipeline_turns, runEvaluation_fst_empty ev q a t (freeze s) h]
  · refine ⟨(submitPipeline ev q now a t s).1, (submitPipeline ev q now a t s).2,
      spamAnswerEval, by rw [submitAnswer_run ev now a t s q hq hst], Or.inr rfl, ?_,
      rfl, rfl, rfl, rfl, rfl, recordedTurn_zeros_finalScore _ q now a t s rfl rfl rfl rfl,
      hindep⟩
    rw [submitPipeline_turns, runEvaluation_fst_spam ev q a t (freeze s) h ⟨h2, h3⟩]

/-- C6 witness: an empty answer submitted after 70 seconds is rejected by
the pre-filter with all criteria and the final score forced to 0. -/
theorem edge_case_prefilter_witness :
    (isEmptyAnswer "" = true
      ∨ (isEmptyAnswer "" = false
          ∧ (70 : ℚ) * 1000 < INTERVIEW_POLICY.TIMING.MIN_ANSWER_TIME_MS ∧ 5 < jsLength ""))
    ∧ ∃ s' em raw, submitAnswer (constEval 4) 0 "" 70 sPresented = Except.ok (s', em)
        ∧ (raw = emptyAnswerEval ∨ raw = spamAnswerEval)
        ∧ s'.turns = sPresented.turns ++ [recordedTurn raw q0 0 "" 70 sPresented]
        ∧ (recordedTurn raw q0 0 "" 70 sPresented).evaluation.accuracy = 0
        ∧ (recordedTurn raw q0 0 "" 70 sPresented).evaluation.clarity = 0
        ∧ (recordedTurn raw q0 0 "" 70 sPresented).evaluation.depth = 0
        ∧ (recordedTurn raw q0 0 "" 70 sPresented).evaluation.relevance = 0
        ∧ (recordedTurn raw q0 0 "" 70 sPresented).evaluation.isFallback = some true
        ∧ (recordedTurn raw q0 0 "" 70 sPresented).evaluation.finalScore = 0
        ∧ submitAnswer (constEval 4) 0 "" 70 sPresented
            = submitAnswer (constEval 9) 0 "" 70 sPresented :=
  ⟨Or.inl (by decide),
    edge_case_prefilter (constEval 4) (constEval 9) 0 "" 70 sPresented q0 rfl rfl
      (Or.inl (by decide))⟩

/-- C10 (implicit): the time-penalty computation runs even for answers the
pre-filter rejected — an empty/whitespace or spam-flagged answer submitted
after `PENALTY_START_SEC` (60) still records a time violation, incrementing
the counter, and can push the session over the violation limit into
`TERMINATED`, although the criteria and the final score are already 0. -/
theorem prefilter_still_counts_violations (ev : Question → String → RawEval) (now : ℤ)
    (a : String) (t : ℚ) (s : InterviewState) (q : Question)
    (hq : s.activeQuestion = some q) (hst : s.status = Status.INTERVIEWING)
    (hedge : isEmptyAnswer a = true
      ∨ (isEmptyAnswer a = false
          ∧ t * 1000 < INTERVIEW_POLICY.TIMING.MIN_ANSWER_TIME_MS ∧ 5 < jsLength a))
    (ht : INTERVIEW_POLICY.TIMING.PENALTY_START_SEC < t) :
    ∃ s' em, submitAnswer ev now a t s = Except.ok (s', em)
      ∧ s'.timeViolations = s.timeViolations + 1
      ∧ (s.timeViolations = INTERVIEW_POLICY.TIMING.MAX_VIOLATIONS_ALLOWED →
          s'.status = Status.TERMINATED)
      ∧ ∃ raw, (raw = emptyAnswerEval ∨ raw = spamAnswerEval)
          ∧ s'.turns = s.turns ++ [recordedTurn raw q now a t s]
          ∧ (recordedTurn raw q now a t s).evaluation.finalScore = 0 := by
  have hv : (LogicCore.calculateTimeLogic t).isViolation = true := by
    rw [calculateTimeLogic_late t ht]
  refine ⟨(submitPipeline ev q now a t s).1, (submitPipeline ev q now a t s).2,
    by rw [submitAnswer_run ev now a t s q hq hst], ?_, ?_, ?_⟩
  · rw [submitPipeline_timeViolations, hv]
    simp
  · intro hmax
    obtain ⟨u, hu, hTV, hCNT, hTS⟩ := submitPipeline_fin ev q now a t s
    rw [hu]
    have hgt : INTERVIEW_POLICY.TIMING.MAX_VIOLATIONS_ALLOWED < u.timeViolations := by
      rw [hTV, hv, if_pos rfl, hmax]
      decide
    unfold finishSubmit checkTermination terminate
    rw [if_pos hgt]
    rfl
  · rcases hedge with h | ⟨h, h2, h3⟩
    · refine ⟨emptyAnswerEval, Or.inl rfl, ?_,
        recordedTurn_zeros_finalScore _ q now a t s rfl rfl rfl rfl⟩
      rw [submitPipeline_turns, runEvaluation_fst_empty ev q a t (freeze s) h]
    · refine ⟨spamAnswerEval, Or.inr rfl, ?_,
        recordedTurn_zeros_finalScore _ q now a t s rfl rfl rfl rfl⟩
      rw [submitPipeline_turns, runEvaluation_fst_spam ev q a t (freeze s) h ⟨h2, h3⟩]

/-- C10 witness: an empty answer at 70 seconds increments the violation
counter of a fresh session from 0 to 1. -/
theorem prefilter_still_counts_violations_witness :
    ∃ s' em, submitAnswer (constEval 4) 0 "" 70 sPresented = Except.ok (s', em)
      ∧ s'.timeViolations = sPresented.timeViolations + 1
      ∧ (sPresented.timeViolations = INTERVIEW_POLICY.TIMING.MAX_VIOLATIONS_ALLOWED →
          s'.status = Status.TERMINATED)
      ∧ ∃ raw, (raw = emptyAnswerEval ∨ raw = spamAnswerEval)
          ∧ s'.turns = sPresented.turns ++ [recordedTurn raw q0 0 "" 70 sPresented]
          ∧ (recordedTurn raw q0 0 "" 70 sPresented).evaluation.finalScore = 0 :=
  prefilter_still_counts_violations (constEval 4) 0 "" 70 sPresented q0 rfl rfl
    (Or.inl (by decide))
    (by norm_num [INTERVIEW_POLICY.TIMING.PENALTY_START_SEC])

@[simp] lemma startAnalysis_fst_status (s : InterviewState) : (startAnalysis s).1.status = Status.ANALYZING := rfl

@[simp] lemma startAnalysis_snd (s : InterviewState) : (startAnalysis s).2 = [(startAnalysis s).1] := rfl

@[simp] lemma startAnalysis_fst_currentDifficulty (s : InterviewState) : (startAnalysis s).1.currentDifficulty = s.currentDifficulty := rfl

@[simp] lemma startAnalysis_fst_difficultyCeiling (s : InterviewState) : (startAnalysis s).1.difficultyCeiling = s.difficultyCeiling := rfl

@[simp] lemma setGenerating_fst_status (s : InterviewState) : (setGenerating s).1.status = Status.GENERATING := rfl

@[simp] lemma setGenerating_snd (s : InterviewState) : (setGenerating s).2 = [(setGenerating s).1] := rfl

@[simp] lemma setGenerating_fst_currentDifficulty (s : InterviewState) : (setGenerating s).1.currentDifficulty = s.currentDifficulty := rfl

@[simp] lemma setGenerating_fst_difficultyCeiling (s : InterviewState) : (setGenerating s).1.difficultyCeiling = s.difficultyCeiling := rfl

@[simp] lemma presentQuestion_snd (q : Question) (s : InterviewState) : (presentQuestion q s).2 = [(presentQuestion q s).1] := rfl

@[simp] lemma reset_fst (s : InterviewState) : (reset s).1 = getInitialState := rfl

@[simp] lemma reset_snd (s : InterviewState) : (reset s).2 = [getInitialState] := rfl

lemma initializeSession_fst_status (jd : JobDescriptionData) (r : ResumeData) (s : InterviewState) :
    (initializeSession jd r s).1.status = Status.IDLE := by
  obtain ⟨gaps, ceil, lg, h, _⟩ := initializeSession_eq jd r s
  rw [h]

lemma initializeSession_snd (jd : JobDescriptionData) (r : ResumeData) (s : InterviewState) :
    (initializeSession jd r s).2 = [(initializeSession jd r s).1] := by
  obtain ⟨gaps, ceil, lg, h, _⟩ := initializeSession_eq jd r s
  rw [h]

/-- The difficulty transition never exceeds a set ceiling. -/
lemma nextDifficulty_le_cap (c : Difficulty) (fs : ℚ) (cap : Difficulty) :
    (LogicCore.nextDifficulty c fs (some cap)).toIdx ≤ cap.toIdx := by
  unfold LogicCore.nextDifficulty
  by_cases h1 : INTERVIEW_POLICY.SCORING.STRONG_SCORE ≤ fs
  · simp only [if_pos h1]
    cases c <;> cases cap <;> decide
  · simp only [if_neg h1]
    by_cases h2 : fs ≤ INTERVIEW_POLICY.SCORING.WEAK_SCORE
    · simp only [if_pos h2]
      cases c <;> cases cap <;> decide
    · simp only [if_neg h2]
      cases c <;> cases cap <;> decide

lemma ceilingInv_of_fields (x y : InterviewState) (h1 : x.difficultyCeiling = y.difficultyCeiling)
    (h2 : x.currentDifficulty = y.currentDifficulty) (hy : CeilingInv y) : CeilingInv x := by
  unfold CeilingInv at hy ⊢
  rw [h1, h2]
  exact hy

lemma ceilingInv_init : CeilingInv getInitialState := by
  unfold CeilingInv getInitialState
  exact ⟨Or.inl rfl, by intro cap h; cases h⟩

lemma ceilingInv_step (s s' : InterviewState) (em : List InterviewState)
    (hP : CeilingInv s) (hst : Step s s' em) : CeilingInv s' ∧ ∀ e ∈ em, CeilingInv e := by
  have initialCap : ∀ (compl : ComplexityLevel),
      (INTERVIEW_POLICY.DIFFICULTY.INITIAL compl).toIdx
        ≤ INTERVIEW_POLICY.DIFFICULTY.CEILING.CAP_LEVEL.toIdx := by
    intro compl
    cases compl <;> decide
  cases hst with
  | analyze s =>
    have h : CeilingInv (startAnalysis s).1 := ceilingInv_of_fields _ s rfl rfl hP
    exact ⟨h, by simp only [startAnalysis_snd, List.mem_singleton]; intro e he; rw [he]; exact h⟩
  | initSession jd r s =>
    obtain ⟨gaps, ceil, lg, heq, hceil⟩ := initializeSession_eq jd r s
    have h : CeilingInv (initializeSession jd r s).1 := by
      rw [heq]
      constructor
      · rcases hceil with h | h
        · exact Or.inr (by simp [h])
        · rcases hP.1 with h2 | h2
          · exact Or.inl (by simp [h, h2])
          · exact Or.inr (by simp [h, h2])
      · intro cap hcap
        simp only [] at hcap
        have hcapeq : cap = INTERVIEW_POLICY.DIFFICULTY.CEILING.CAP_LEVEL := by
          rcases hceil with h | h
          · rw [h] at hcap
            exact (Option.some.injEq .. ▸ hcap).symm
          · rw [h] at hcap
            rcases hP.1 with h2 | h2
            · rw [h2] at hcap
              cases hcap
            · rw [h2] at hcap
              exact (Option.some.injEq .. ▸ hcap).symm
        rw [hcapeq]
        exact initialCap jd.complexityLevel
    refine ⟨h, ?_⟩
    rw [heq] at h ⊢
    intro e he
    rw [List.mem_singleton] at he
    rw [he]
    exact h
  | gen s =>
    have h : CeilingInv (setGenerating s).1 := ceilingInv_of_fields _ s rfl rfl hP
    exact ⟨h, by simp only [setGenerating_snd, List.mem_singleton]; intro e he; rw [he]; exact h⟩
  | present q s =>
    have h : CeilingInv (presentQuestion q s).1 := ceilingInv_of_fields _ s rfl rfl hP
    exact ⟨h, by simp only [presentQuestion_snd, List.mem_singleton]; intro e he; rw [he]; exact h⟩
  | start q s =>
    unfold startInterview
    by_cases hg : s.status ≠ Status.IDLE ∧ s.status ≠ Status.GENERATING
    · rw [if_pos hg]
      exact ⟨hP, by intro e he; cases he⟩
    · rw [if_neg hg]
      have h : CeilingInv (presentQuestion q (pushLog "[STATE] Session Initialized. Transitioning to INTERVIEWING." s)).1 :=
        ceilingInv_of_fields _ s rfl rfl hP
      exact ⟨h, by simp only [presentQuestion_snd, List.mem_singleton]; intro e he; rw [he]; exact h⟩
  | submit ev now a t s s' em hok =>
    rcases submitAnswer_ok_cases ev now a t s s' em hok with ⟨h1, h2, _⟩ | ⟨q, hq, hst2, h1, h2⟩
    · subst h1
      subst h2
      exact ⟨hP, by intro e he; cases he⟩
    · have hfin : CeilingInv (submitPipeline ev q now a t s).1 := by
        constructor
        · rw [submitPipeline_difficultyCeiling]
          exact hP.1
        · intro cap hcap
          rw [submitPipeline_difficultyCeiling] at hcap
          rw [submitPipeline_currentDifficulty, hcap]
          exact nextDifficulty_le_cap _ _ _
      subst h1
      subst h2
      refine ⟨hfin, ?_⟩
      rw [submitPipeline_snd]
      intro e he
      rcases List.mem_cons.mp he with he | he
      · rw [he]
        exact ceilingInv_of_fields _ s rfl rfl hP
      · rw [List.mem_singleton] at he
        rw [he]
        exact hfin
  | doReset s =>
    exact ⟨ceilingInv_init, by
      simp only [reset_snd, List.mem_singleton]
      intro e he
      rw [he]
      exact ceilingInv_init⟩

/-- Initializing against `jd0`/`r0` (0 of 2 primary skills matched, under
the 60% threshold) caps the difficulty at Medium. -/
lemma ceilState_ceiling : ceilState.difficultyCeiling = some Difficulty.Medium := by
  unfold ceilState initializeSession
  have hlist : (jd0.primarySkills.filter (fun skill =>
      !(((r0.skills.map (fun sk => jsTrim (jsToLowerCase sk.name)))).contains
        (jsTrim (jsToLowerCase skill))))).length = 2 := by decide
  simp only [pushLog_difficultyCeiling]
  rw [if_pos ?_]
  · simp [INTERVIEW_POLICY.DIFFICULTY.CEILING.CAP_LEVEL]
  · rw [hlist]
    norm_num [jd0, INTERVIEW_POLICY.DIFFICULTY.CEILING.CRITICAL_GAP_MATCH_THRESHOLD]

/-- C5: the difficulty transition is exactly the spec's rule — one level up
on a score at or above the strong threshold (8.0) saturating at Hard, one
level down at or below the weak threshold (4.5) saturating at Easy,
unchanged in between, and clamped down to the ceiling whenever the proposal
exceeds it; consequently the session's current difficulty never exceeds an
established ceiling in any observable state. -/
theorem difficulty_adaptation_ceiling :
    (∀ (c : Difficulty) (fs : ℚ) (ceil : Option Difficulty),
        LogicCore.nextDifficulty c fs ceil = specNextDifficulty c fs ceil)
    ∧ (∀ (c : Difficulty) (fs : ℚ) (cap : Difficulty),
        (LogicCore.nextDifficulty c fs (some cap)).toIdx ≤ cap.toIdx)
    ∧ (∀ s, Observable s → ∀ cap, s.difficultyCeiling = some cap →
        s.currentDifficulty.toIdx ≤ cap.toIdx) := by
  refine ⟨?_, nextDifficulty_le_cap, ?_⟩
  · intro c fs ceil
    unfold LogicCore.nextDifficulty specNextDifficulty
    by_cases h1 : INTERVIEW_POLICY.SCORING.STRONG_SCORE ≤ fs
    · simp only [if_pos h1]
      cases c <;> rcases ceil with _ | cap
      · rfl
      · cases cap <;> decide
      · rfl
      · cases cap <;> decide
      · rfl
      · cases cap <;> decide
    · simp only [if_neg h1]
      by_cases h2 : fs ≤ INTERVIEW_POLICY.SCORING.WEAK_SCORE
      · simp only [if_pos h2]
        cases c <;> rcases ceil with _ | cap
        · rfl
        · cases cap <;> decide
        · rfl
        · cases cap <;> decide
        · rfl
        · cases cap <;> decide
      · simp only [if_neg h2]
        cases c <;> rcases ceil with _ | cap
        · rfl
        · cases cap <;> decide
        · rfl
        · cases cap <;> decide
        · rfl
        · cases cap <;> decide
  · intro s hs
    exact (observable_inv ceilingInv_init ceilingInv_step s hs).2

/-- C5 witness: a session initialized with 0 of 2 primary skills matched
has its ceiling at Medium, and its current difficulty stays at or below
Medium. -/
theorem difficulty_adaptation_ceiling_witness :
    Observable ceilState ∧ ceilState.difficultyCeiling = some Difficulty.Medium
      ∧ ceilState.currentDifficulty.toIdx ≤ Difficulty.Medium.toIdx := by
  have hobs : Observable ceilState :=
    Observable.next _ _ _ Observable.init (Step.initSession jd0 r0 getInitialState)
  exact ⟨hobs, ceilState_ceiling,
    difficulty_adaptation_ceiling.2.2 ceilState hobs Difficulty.Medium ceilState_ceiling⟩

lemma activeInv_step (s s' : InterviewState) (em : List InterviewState)
    (hP : s.status = Status.INTERVIEWING → s.activeQuestion ≠ none)
    (hst : Step s s' em) :
    (s'.status = Status.INTERVIEWING → s'.activeQuestion ≠ none)
      ∧ ∀ e ∈ em, e.status = Status.INTERVIEWING → e.activeQuestion ≠ none := by
  cases hst with
  | analyze s =>
    refine ⟨fun h => ?_, ?_⟩
    · rw [startAnalysis_fst_status] at h
      exact Status.noConfusion h
    · simp only [startAnalysis_snd, List.mem_singleton]
      intro e he
      rw [he, startAnalysis_fst_status]
      intro h
      exact Status.noConfusion h
  | initSession jd r s =>
    refine ⟨fun h => ?_, ?_⟩
    · rw [initializeSession_fst_status jd r s] at h
      exact Status.noConfusion h
    · rw [initializeSession_snd jd r s]
      intro e he
      rw [List.mem_singleton] at he
      rw [he, initializeSession_fst_status jd r s]
      intro h
      exact Status.noConfusion h
  | gen s =>
    refine ⟨fun h => ?_, ?_⟩
    · rw [setGenerating_fst_status] at h
      exact Status.noConfusion h
    · simp only [setGenerating_snd, List.mem_singleton]
      intro e he
      rw [he, setGenerating_fst_status]
      intro h
      exact Status.noConfusion h
  | present q s =>
    refine ⟨fun _ => ?_, ?_⟩
    · rw [presentQuestion_fst_activeQuestion]
      exact Option.some_ne_none q
    · simp only [presentQuestion_snd, List.mem_singleton]
      intro e he _
      rw [he, presentQuestion_fst_activeQuestion]
      exact Option.some_ne_none q
  | start q s =>
    unfold startInterview
    by_cases hg : s.status ≠ Status.IDLE ∧ s.status ≠ Status.GENERATING
    · rw [if_pos hg]
      exact ⟨hP, by intro e he; exact absurd he (List.not_mem_nil e)⟩
    · rw [if_neg hg]
      refine ⟨fun _ => ?_, ?_⟩
      · rw [presentQuestion_fst_activeQuestion]
        exact Option.some_ne_none q
      · simp only [presentQuestion_snd, List.mem_singleton]
        intro e he _
        rw [he, presentQuestion_fst_activeQuestion]
        exact Option.some_ne_none q
  | submit ev now a t s s' em hok =>
    rcases submitAnswer_ok_cases ev now a t s s' em hok with ⟨h1, h2, hne⟩ | ⟨q, hq, hst2, h1, h2⟩
    · subst h1
      subst h2
      exact ⟨fun h => absurd h hne, by intro e he; exact absurd he (List.not_mem_nil e)⟩
    · subst h1
      subst h2
      have hfin : (submitPipeline ev q now a t s).1.status = Status.INTERVIEWING →
          (submitPipeline ev q now a t s).1.activeQuestion ≠ none := by
        intro h
        rcases submitPipeline_status ev q now a t s with h2 | h2 | h2 <;>
          (rw [h2] at h; exact Status.noConfusion h)
      refine ⟨hfin, ?_⟩
      rw [submitPipeline_snd]
      intro e he
      rcases List.mem_cons.mp he with he | he
      · rw [he, freeze_status]
        intro h
        exact Status.noConfusion h
      · rw [List.mem_singleton] at he
        rw [he]
        exact hfin
  | doReset s =>
    refine ⟨fun h => Status.noConfusion h, ?_⟩
    simp only [reset_snd, List.mem_singleton]
    intro e he
    rw [he]
    intro h
    exact Status.noConfusion h

/-- C1 (amended): in every observable state — reachable or delivered to a
subscriber — status `INTERVIEWING` implies a non-null `activeQuestion`
(`presentQuestion`'s one notification carries both the question and the
status).  The converse direction of the original claim is refuted by
`active_question_iff_interviewing_counterexample`: the `EVALUATING` freeze
notification still carries the active question. -/
theorem interviewing_has_active_question (s : InterviewState) (hs : Observable s)
    (hI : s.status = Status.INTERVIEWING) : s.activeQuestion ≠ none :=
  observable_inv (P := fun u => u.status = Status.INTERVIEWING → u.activeQuestion ≠ none)
    (fun h => Status.noConfusion h) activeInv_step s hs hI

/-- C1 witness: the state after presenting a question to a fresh engine is
observable, `INTERVIEWING`, and has its active question set. -/
theorem interviewing_has_active_question_witness :
    Observable sPresented ∧ sPresented.status = Status.INTERVIEWING
      ∧ sPresented.activeQuestion ≠ none := by
  have hobs : Observable sPresented :=
    Observable.next _ _ _ Observable.init (Step.present q0 getInitialState)
  exact ⟨hobs, rfl, interviewing_has_active_question sPresented hobs rfl⟩

/-- C1 counterexample: the claimed equivalence "`activeQuestion` non-null
iff status `INTERVIEWING`" fails at an observable notification point — the
`EVALUATING` freeze state notified at the start of `submitAnswer` still
carries the active question. -/
theorem active_question_iff_interviewing_counterexample :
    ¬ (∀ s, Observable s → (s.activeQuestion ≠ none ↔ s.status = Status.INTERVIEWING)) := by
  intro hall
  have hobs : Observable (freeze sPresented) := by
    refine Observable.notified sPresented
      (submitPipeline (constEval 4) q0 0 ansOK 10 sPresented).1
      (submitPipeline (constEval 4) q0 0 ansOK 10 sPresented).2
      (freeze sPresented)
      (Observable.next _ _ _ Observable.init (Step.present q0 getInitialState))
      (Step.submit (constEval 4) 0 ansOK 10 sPresented
        (submitPipeline (constEval 4) q0 0 ansOK 10 sPresented).1
        (submitPipeline (constEval 4) q0 0 ansOK 10 sPresented).2
        (by rw [submitAnswer_run (constEval 4) 0 ansOK 10 sPresented q0 rfl rfl]))
      ?_
    rw [submitPipeline_snd]
    exact List.mem_cons_self _ _
  have h2 := (hall _ hobs).mp (by
    rw [freeze_activeQuestion]
    exact Option.some_ne_none q0)
  rw [freeze_status] at h2
  exact Status.noConfusion h2

/-- C9 counterexample: the source's `notify` (`cb(this.state)`) hands the
subscriber the engine's own state object, so a subscriber mutation through
the delivered value changes the Session Controller's state — here flipping
its observed status from `IDLE` to `TERMINATED`. -/
theorem subscriber_mutation_reaches_engine_state :
    heapWrite heap0 (notifyDeliveredAddr engine0) subscriberMutation engine0.stateAddr
        = subscriberMutation
      ∧ (heapWrite heap0 (notifyDeliveredAddr engine0) subscriberMutation
            engine0.stateAddr).status
          ≠ (heap0 engine0.stateAddr).status := by
  constructor
  · rfl
  · intro h
    exact Status.noConfusion h

/-- C9 (amended): subscriber notifications alias the live session state —
`notify` delivers the engine's own state reference, so a subscriber write
through the delivered reference is visible as the controller's state, while
a snapshot-publishing notify (a fresh copy, as the spec describes) would
leave the controller's state untouched.  Immutability of the delivered
value is not enforced by the engine; the presentation layer defensively
copies the state it receives. -/
theorem notify_delivers_live_reference :
    (∀ (e : EngineRef) (h : Heap) (v : InterviewState),
        heapWrite h (notifyDeliveredAddr e) v e.stateAddr = v)
    ∧ (∀ (e : EngineRef) (h : Heap) (v : InterviewState) (fresh : ℕ),
        fresh ≠ e.stateAddr →
        heapWrite h (snapshotDeliveredAddr e fresh) v e.stateAddr = h e.stateAddr) := by
  constructor
  · intro e h v
    unfold heapWrite notifyDeliveredAddr
    rw [if_pos rfl]
  · intro e h v fresh hne
    unfold heapWrite snapshotDeliveredAddr
    rw [if_neg (fun hh => hne hh.symm)]

/-- C9 witness: with the engine state at address 0, a subscriber write
through the notified reference lands in the engine's state, while a write
to a fresh snapshot address 1 does not. -/
theorem notify_delivers_live_reference_witness :
    heapWrite heap0 (notifyDeliveredAddr engine0) subscriberMutation engine0.stateAddr
        = subscriberMutation
      ∧ (1 : ℕ) ≠ engine0.stateAddr
      ∧ heapWrite heap0 (snapshotDeliveredAddr engine0 1) subscriberMutation engine0.stateAddr
          = heap0 engine0.stateAddr :=
  ⟨notify_delivers_live_reference.1 engine0 heap0 subscriberMutation,
    by decide,
    notify_delivers_live_reference.2 engine0 heap0 subscriberMutation 1 (by decide)⟩

end Hack2Hire
